import Mathlib

/-!
# Traffic-light simulator: the tick update of `main.go`

A shallow embedding of the simulation core of `src/main.go`: the data types
`TrafficLightState`, `TrafficLight`, `Vehicle` and `model`, the constructor
`initialModel`, the lookup `getLightByAvenue`, the method `model.Update` with
its `tickMsg` branch, and the loop of `model.View` that indexes the track line.

Integers.  Go's `int` is taken to be 64 bits wide and is modelled by `Int`;
every addition and subtraction of the tick is followed by the two's-complement
wrap `wrapInt64`, so that the model agrees with the program in every state
whose integers are 64-bit values.  In the states the program can reach
everything but the frame counter stays below 1000 (see `reachable_small`) and
no operation wraps.

Randomness.  The four results of `rand.Intn` that one tick may consume are an
explicit argument of the tick (`Draws`); their types carry the ranges
`[0,10)`, `[0,3)`, `[0,2)` and `[0,999)` that `rand.Intn` guarantees.
-/

namespace Traffic

/-! ## Data model -/

/-- The three phases of a light (`iota` order of the source: Red, Green, Yellow). -/
inductive TrafficLightState where
  | Red
  | Green
  | Yellow
  deriving DecidableEq, Repr

/-- One traffic light, fields in the order of the Go struct. -/
structure TrafficLight where
  Avenue : String
  State : TrafficLightState
  Timer : Int
  Group : Int
  Passed : Int
  Waiting : Int
  Countdown : Int
  deriving DecidableEq, Repr

/-- One vehicle, fields in the order of the Go struct. -/
structure Vehicle where
  Avenue : String
  Pos : Int
  Speed : Int
  ID : Int
  deriving DecidableEq, Repr

/-- The whole simulation state (the Go struct `model`). -/
structure model where
  lights : List TrafficLight
  frame : Int
  vehicles : List Vehicle
  width : Int
  cycle : Int
  syncCountdown : Int
  transitioning : Bool
  deriving DecidableEq, Repr

/-- The results of the calls to `rand.Intn` made by one tick:
`rand.Intn(10)`, `rand.Intn(len(avenues))`, `rand.Intn(2)`, `rand.Intn(999)`. -/
structure Draws where
  spawnDraw : Fin 10
  avenueDraw : Fin 3
  speedDraw : Fin 2
  idDraw : Fin 999
  deriving DecidableEq, Repr

/-- The messages `Update` distinguishes: a tick, a key press, anything else. -/
inductive Msg where
  | tickMsg
  | KeyMsg (key : String)
  | other
  deriving DecidableEq, Repr

/-- The commands `Update` returns: schedule the next tick, quit, or nothing. -/
inductive Cmd where
  | tick
  | quit
  | none
  deriving DecidableEq, Repr

/-- Two's-complement wrap of a 64-bit signed integer. -/
def wrapInt64 (x : Int) : Int := (x + 2 ^ 63) % 2 ^ 64 - 2 ^ 63

/-- The least 64-bit signed integer. -/
def minInt64 : Int := -2 ^ 63

/-- The greatest 64-bit signed integer. -/
def maxInt64 : Int := 2 ^ 63 - 1

/-- The values of Go's `int`: the 64-bit signed integers. -/
def inInt64 (x : Int) : Prop := minInt64 ≤ x ∧ x ≤ maxInt64

/-! ## `initialModel` -/

/-- The start state built by `initialModel()`; `frame` is the zero value. -/
def initialModel : model :=
  { lights :=
      [ ⟨"Av. Brasil", .Red, 0, 1, 0, 0, 0⟩,
        ⟨"Av. Paulista", .Red, 0, 2, 0, 0, 0⟩,
        ⟨"Av. Rebouças", .Red, 0, 1, 0, 0, 0⟩ ]
    frame := 0
    vehicles := []
    width := 50
    cycle := 1
    syncCountdown := 2
    transitioning := true }

/-! ## `getLightByAvenue` -/

/-- Linear scan for the first light whose `Avenue` is the given one; `none` is
the `nil` pointer of the source.  The callers only read through the pointer, so
the light itself is returned. -/
def getLightByAvenue : List TrafficLight → String → Option TrafficLight
  | [], _ => none
  | l :: ls, avenue => if l.Avenue = avenue then some l else getLightByAvenue ls avenue

/-! ## The light phase of a tick (lines 103-139) -/

/-- The loop of the transitioning branch once `syncCountdown <= 0`: every light
of the group `cycle` becomes Green with countdown 5. -/
def turnGreen (cycle : Int) : List TrafficLight → List TrafficLight
  | [] => []
  | l :: ls =>
    (if l.Group = cycle then { l with State := .Green, Countdown := 5 } else l)
      :: turnGreen cycle ls

/-- One iteration of the loop of the running branch: the light after the
iteration and the value of `allExpired` after it. -/
def runLight (cycle : Int) (light : TrafficLight) (allExpired : Bool) :
    TrafficLight × Bool :=
  if light.Group = cycle then
    if light.Countdown > 0 then
      ({ light with Countdown := wrapInt64 (light.Countdown - 1) }, false)
    else
      ({ light with State := .Yellow, Countdown := 2 }, allExpired)
  else if light.State ≠ .Red then
    if wrapInt64 (light.Countdown - 1) ≤ 0 then
      ({ light with State := .Red, Countdown := 0 }, allExpired)
    else
      ({ light with Countdown := wrapInt64 (light.Countdown - 1) }, allExpired)
  else
    (light, allExpired)

/-- The loop of the running branch over all lights, threading `allExpired`. -/
def runLights (cycle : Int) : List TrafficLight → Bool → List TrafficLight × Bool
  | [], allExpired => ([], allExpired)
  | l :: ls, allExpired =>
    let step := runLight cycle l allExpired
    let rest := runLights cycle ls step.2
    (step.1 :: rest.1, rest.2)

/-- The synchronised group control: lines 103-139 of `Update`. -/
def lightPhase (m : model) : model :=
  if m.transitioning then
    let m1 := { m with syncCountdown := wrapInt64 (m.syncCountdown - 1) }
    if m1.syncCountdown ≤ 0 then
      { m1 with transitioning := false, lights := turnGreen m1.cycle m1.lights }
    else
      m1
  else
    let looped := runLights m.cycle m.lights true
    let m1 := { m with lights := looped.1 }
    if looped.2 then
      { m1 with transitioning := true, syncCountdown := 2, cycle := wrapInt64 (3 - m1.cycle) }
    else
      m1

/-! ## Spawning (lines 141-150) -/

/-- The avenue names a spawned vehicle may get. -/
def avenues : List String := ["Av. Brasil", "Av. Paulista", "Av. Rebouças"]

/-- The vehicle built from the draws: `avenues[rand.Intn(3)]`, position 0,
speed `rand.Intn(2) + 1`, id `rand.Intn(999)`. -/
def newVehicle (r : Draws) : Vehicle :=
  { Avenue := avenues.get ⟨r.avenueDraw.val, r.avenueDraw.isLt⟩
    Pos := 0
    Speed := (r.speedDraw.val : Int) + 1
    ID := (r.idDraw.val : Int) }

/-- Appends a new vehicle when `rand.Intn(10) > 6`. -/
def spawnVehicle (m : model) (r : Draws) : model :=
  if r.spawnDraw.val > 6 then { m with vehicles := m.vehicles ++ [newVehicle r] } else m

/-! ## Moving and retiring vehicles (lines 152-162) -/

/-- The body of the vehicle loop up to the retirement test: the vehicle moves
by its speed when its avenue has a light and that light is Green. -/
def moveVehicle (lights : List TrafficLight) (v : Vehicle) : Vehicle :=
  match getLightByAvenue lights v.Avenue with
  | some light =>
    if light.State = .Green then { v with Pos := wrapInt64 (v.Pos + v.Speed) } else v
  | none => v

/-- The vehicle loop: move each vehicle, keep it when it is still on the track. -/
def advanceVehicles (lights : List TrafficLight) (width : Int) : List Vehicle → List Vehicle
  | [] => []
  | v :: vs =>
    let v1 := moveVehicle lights v
    if v1.Pos < width then v1 :: advanceVehicles lights width vs
    else advanceVehicles lights width vs

/-! ## `Update` -/

/-- The `tickMsg` branch of `Update`: frame counter, light phase, spawn, vehicles. -/
def tick (m : model) (r : Draws) : model :=
  let m1 := lightPhase { m with frame := wrapInt64 (m.frame + 1) }
  let m2 := spawnVehicle m1 r
  { m2 with vehicles := advanceVehicles m2.lights m2.width m2.vehicles }

/-- The method `model.Update`: a tick advances the simulation and schedules the
next tick, the keys `q` and `ctrl+c` quit, everything else leaves the state. -/
def Update (m : model) (msg : Msg) (r : Draws) : model × Cmd :=
  match msg with
  | .tickMsg => (tick m r, .tick)
  | .KeyMsg key => if key = "q" ∨ key = "ctrl+c" then (m, .quit) else (m, .none)
  | .other => (m, .none)

/-! ## Runs -/

/-- The states the program reaches from `initialModel` by tick updates. -/
inductive Reachable : model → Prop where
  | init : Reachable initialModel
  | step (m : model) (r : Draws) : Reachable m → Reachable (tick m r)

/-- The state after the ticks whose draws are listed, starting from `m`. -/
def runFrom (m : model) : List Draws → model
  | [] => m
  | r :: rs => runFrom (tick m r) rs

/-- The state after the listed ticks from `initialModel`. -/
def run (rs : List Draws) : model := runFrom initialModel rs

/-- Draws of a tick that spawns nothing. -/
def quiet : Draws := ⟨0, 0, 0, 0⟩

/-- Draws of a tick that spawns a vehicle of speed 1 on "Av. Brasil". -/
def spawnBrasil : Draws := ⟨7, 0, 0, 0⟩

/-! ## The lights of a run -/

/-- The part of the state the light phase reads and writes. -/
structure Signals where
  lights : List TrafficLight
  cycle : Int
  syncCountdown : Int
  transitioning : Bool
  deriving DecidableEq, Repr

/-- Projection of a state on its lights and cycle fields. -/
def model.signals (m : model) : Signals :=
  ⟨m.lights, m.cycle, m.syncCountdown, m.transitioning⟩

/-- The state after `n` light phases from `initialModel` (no frame counter, no
vehicles): the reference orbit of the lights. -/
def phaseAfter : Nat → model
  | 0 => initialModel
  | n + 1 => lightPhase (phaseAfter n)

/-- The point of the orbit that tick `n` falls on: the orbit enters its cycle of
length 16 at tick 4. -/
def orbitIndex (n : Nat) : Nat := if n < 4 then n else 4 + (n - 4) % 16

/-- Well-formed vehicle of a run: on the track of width 50, speed 1 or 2, an id
that `rand.Intn(999)` can return, one of the three avenue names. -/
def Vehicle.wellFormed (v : Vehicle) : Prop :=
  0 ≤ v.Pos ∧ v.Pos < 50 ∧ (v.Speed = 1 ∨ v.Speed = 2) ∧
    0 ≤ v.ID ∧ v.ID < 999 ∧ v.Avenue ∈ avenues

/-- The state after ten quiet ticks with one vehicle put on "Av. Paulista" one
step before the end of the track. -/
def lastStep : model :=
  { run (List.replicate 10 quiet) with vehicles := [⟨"Av. Paulista", 49, 2, 7⟩] }

/-- The test of the vehicle loop, `light != nil && light.State == Green`, for
the avenue given. -/
def greenFor (lights : List TrafficLight) (avenue : String) : Prop :=
  ∃ l, getLightByAvenue lights avenue = some l ∧ l.State = .Green

/-- What no loop over the lights changes in a light. -/
def sameIdentity (l l' : TrafficLight) : Prop :=
  l'.Avenue = l.Avenue ∧ l'.Group = l.Group ∧ l'.Timer = l.Timer ∧
    l'.Passed = l.Passed ∧ l'.Waiting = l.Waiting

/-- Draws of a tick that spawns a vehicle of speed 2 on "Av. Brasil". -/
def spawnFast : Draws := ⟨7, 0, 1, 0⟩

/-- The state after five quiet ticks with one vehicle of speed 2 put at the start
of "Av. Brasil": its light is Green after the ticks 6 and 7 and Yellow after
tick 8. -/
def waitingAtFive : model :=
  { run (List.replicate 5 quiet) with vehicles := [⟨"Av. Brasil", 0, 2, 0⟩] }

/-- The start state with one vehicle on an avenue that has no light. -/
def strayVehicle : model :=
  { initialModel with vehicles := [⟨"Av. Ipiranga", 3, 1, 9⟩] }

/-! ## The track line of `View` (lines 213-221) -/

/-- The rune `View` draws for a vehicle. -/
def car : Char := Char.ofNat 128663

/-- The write `line[i] = car` of `View`; `none` stands for the run-time failure
of an index out of range. -/
def setCar (line : List Char) (i : Int) : Option (List Char) :=
  if 0 ≤ i ∧ i < (line.length : Int) then some (line.set i.toNat car) else none

/-- The inner loop of `View` for one light: every vehicle of that avenue with
`Pos < width` is drawn at index `Pos` of the line. -/
def drawVehicles (avenue : String) (width : Int) :
    List Vehicle → List Char → Option (List Char)
  | [], line => some line
  | v :: vs, line =>
    if v.Avenue = avenue ∧ v.Pos < width then
      match setCar line v.Pos with
      | some line1 => drawVehicles avenue width vs line1
      | none => none
    else
      drawVehicles avenue width vs line

/-- The line `View` builds for one light: `make([]rune, m.width)` filled with
blanks, then the vehicles; `none` stands for a run-time failure (negative
length, index out of range). -/
def trackLine (m : model) (light : TrafficLight) : Option (List Char) :=
  if 0 ≤ m.width then
    drawVehicles light.Avenue m.width m.vehicles (List.replicate m.width.toNat (Char.ofNat 32))
  else
    none

/-! ## Shared lemmas: the lights do not depend on vehicles or draws -/

set_option maxRecDepth 100000

/-! ## Shared lemmas: the 64-bit wrap -/

theorem wrapInt64_eq_self {x : Int} (h1 : minInt64 ≤ x) (h2 : x ≤ maxInt64) :
    wrapInt64 x = x := by
  unfold wrapInt64
  unfold minInt64 at h1
  unfold maxInt64 at h2
  norm_num at h1 h2 ⊢
  omega

theorem wrapInt64_of_small {x : Int} (h1 : -1000 ≤ x) (h2 : x ≤ 1000) : wrapInt64 x = x :=
  wrapInt64_eq_self (le_trans (by unfold minInt64; norm_num) h1)
    (le_trans h2 (by unfold maxInt64; norm_num))

theorem wrapInt64_range (x : Int) : minInt64 ≤ wrapInt64 x ∧ wrapInt64 x ≤ maxInt64 := by
  unfold wrapInt64 minInt64 maxInt64
  norm_num
  omega

theorem wrapInt64_pred {x : Int} (h1 : minInt64 < x) (h2 : x ≤ maxInt64) :
    wrapInt64 (x - 1) = x - 1 := by
  unfold wrapInt64
  unfold minInt64 at h1
  unfold maxInt64 at h2
  norm_num at h1 h2 ⊢
  omega

theorem wrapInt64_three_sub {c : Int} (h1 : minInt64 + 4 ≤ c) (h2 : c ≤ maxInt64) :
    wrapInt64 (3 - c) = 3 - c := by
  unfold wrapInt64
  unfold minInt64 at h1
  unfold maxInt64 at h2
  norm_num at h1 h2 ⊢
  omega

theorem wrapInt64_add_left (a b : Int) : wrapInt64 (wrapInt64 a + b) = wrapInt64 (a + b) := by
  unfold wrapInt64
  norm_num
  omega

theorem inInt64_of_small {x : Int} (h1 : -1000 ≤ x) (h2 : x ≤ 1000) : inInt64 x :=
  ⟨le_trans (by unfold minInt64; norm_num) h1, le_trans h2 (by unfold maxInt64; norm_num)⟩

/-! ## Shared lemmas: the lights and the registry -/

theorem signals_eq_iff (m m' : model) :
    m.signals = m'.signals ↔
      m.lights = m'.lights ∧ m.cycle = m'.cycle ∧
        m.syncCountdown = m'.syncCountdown ∧ m.transitioning = m'.transitioning := by
  simp [model.signals]

theorem lightPhase_signals_congr {m m' : model} (h : m.signals = m'.signals) :
    (lightPhase m).signals = (lightPhase m').signals := by
  obtain ⟨hl, hc, hs, ht⟩ := (signals_eq_iff m m').1 h
  unfold lightPhase
  simp only [hl, hc, hs, ht]
  split_ifs <;> rfl

theorem lightPhase_vehicles (m : model) : (lightPhase m).vehicles = m.vehicles := by
  unfold lightPhase
  dsimp only
  split_ifs <;> rfl

theorem lightPhase_width (m : model) : (lightPhase m).width = m.width := by
  unfold lightPhase
  dsimp only
  split_ifs <;> rfl

theorem spawnVehicle_signals (m : model) (r : Draws) :
    (spawnVehicle m r).signals = m.signals := by
  unfold spawnVehicle
  split_ifs <;> rfl

theorem spawnVehicle_width (m : model) (r : Draws) : (spawnVehicle m r).width = m.width := by
  unfold spawnVehicle
  split_ifs <;> rfl

theorem tick_signals (m : model) (r : Draws) :
    (tick m r).signals = (lightPhase m).signals := by
  have h1 : (tick m r).signals
      = (spawnVehicle (lightPhase { m with frame := wrapInt64 (m.frame + 1) }) r).signals := rfl
  rw [h1, spawnVehicle_signals]
  exact lightPhase_signals_congr rfl

theorem tick_lights (m : model) (r : Draws) : (tick m r).lights = (lightPhase m).lights :=
  congrArg Signals.lights (tick_signals m r)

theorem tick_cycle (m : model) (r : Draws) : (tick m r).cycle = (lightPhase m).cycle :=
  congrArg Signals.cycle (tick_signals m r)

theorem tick_syncCountdown (m : model) (r : Draws) :
    (tick m r).syncCountdown = (lightPhase m).syncCountdown :=
  congrArg Signals.syncCountdown (tick_signals m r)

theorem tick_transitioning (m : model) (r : Draws) :
    (tick m r).transitioning = (lightPhase m).transitioning :=
  congrArg Signals.transitioning (tick_signals m r)

theorem tick_width (m : model) (r : Draws) : (tick m r).width = m.width := by
  have h1 : (tick m r).width
      = (spawnVehicle (lightPhase { m with frame := wrapInt64 (m.frame + 1) }) r).width := rfl
  rw [h1, spawnVehicle_width, lightPhase_width]

theorem tick_vehicles (m : model) (r : Draws) :
    (tick m r).vehicles =
      advanceVehicles (lightPhase m).lights m.width (spawnVehicle m r).vehicles := by
  have h1 : (tick m r).vehicles
      = advanceVehicles (tick m r).lights (tick m r).width
          (spawnVehicle (lightPhase { m with frame := wrapInt64 (m.frame + 1) }) r).vehicles := rfl
  rw [h1, tick_lights, tick_width]
  congr 1
  unfold spawnVehicle
  split_ifs <;> simp [lightPhase_vehicles]

/-! ## Shared lemmas: runs and the orbit of the lights -/

theorem runFrom_append (m : model) (rs ss : List Draws) :
    runFrom m (rs ++ ss) = runFrom (runFrom m rs) ss := by
  induction rs generalizing m with
  | nil => rfl
  | cons r rs ih => exact ih (tick m r)

theorem run_snoc (rs : List Draws) (r : Draws) : run (rs ++ [r]) = tick (run rs) r := by
  unfold run
  rw [runFrom_append]
  rfl

theorem reachable_runFrom {m : model} (h : Reachable m) (rs : List Draws) :
    Reachable (runFrom m rs) := by
  induction rs generalizing m with
  | nil => exact h
  | cons r rs ih => exact ih (Reachable.step m r h)

theorem reachable_run (rs : List Draws) : Reachable (run rs) :=
  reachable_runFrom Reachable.init rs

theorem reachable_iff_run (m : model) : Reachable m ↔ ∃ rs, m = run rs := by
  constructor
  · intro h
    induction h with
    | init => exact ⟨[], rfl⟩
    | step m r _ ih =>
      obtain ⟨rs, rfl⟩ := ih
      exact ⟨rs ++ [r], (run_snoc rs r).symm⟩
  · rintro ⟨rs, rfl⟩
    exact reachable_run rs

theorem run_signals (rs : List Draws) : (run rs).signals = (phaseAfter rs.length).signals := by
  induction rs using List.reverseRecOn with
  | nil => rfl
  | append_singleton rs r ih =>
    rw [run_snoc, tick_signals, List.length_append, List.length_singleton]
    exact lightPhase_signals_congr ih

theorem phaseAfter_period (n : Nat) :
    (phaseAfter (n + 20)).signals = (phaseAfter (n + 4)).signals := by
  induction n with
  | zero => rfl
  | succ n ih => exact lightPhase_signals_congr ih

theorem phaseAfter_lt (n : Nat) : ∃ k, k < 20 ∧ (phaseAfter n).signals = (phaseAfter k).signals := by
  induction n using Nat.strong_induction_on with
  | _ n ih =>
    by_cases h : n < 20
    · exact ⟨n, h, rfl⟩
    · obtain ⟨k, hk, hk'⟩ := ih (n - 16) (by omega)
      refine ⟨k, hk, ?_⟩
      have h1 := phaseAfter_period (n - 20)
      rw [show n - 20 + 20 = n by omega, show n - 20 + 4 = n - 16 by omega] at h1
      rw [h1, hk']

theorem reachable_signals {m : model} (h : Reachable m) :
    ∃ k, k < 20 ∧ m.signals = (phaseAfter k).signals := by
  obtain ⟨rs, rfl⟩ := (reachable_iff_run m).1 h
  obtain ⟨k, hk, hk'⟩ := phaseAfter_lt rs.length
  exact ⟨k, hk, (run_signals rs).trans hk'⟩

/-- Every property of the lights and cycle fields that holds at the first twenty
points of the orbit holds in every reachable state. -/
theorem reachable_of_orbit (P : Signals → Prop)
    (hP : ∀ k, k < 20 → P (phaseAfter k).signals) {m : model} (h : Reachable m) :
    P m.signals := by
  obtain ⟨k, hk, hk'⟩ := reachable_signals h
  rw [hk']
  exact hP k hk

theorem orbitIndex_lt (n : Nat) : orbitIndex n < 20 := by
  unfold orbitIndex
  split_ifs <;> omega

theorem orbitIndex_mod (n : Nat) : orbitIndex n % 16 = n % 16 := by
  unfold orbitIndex
  split_ifs <;> omega

theorem orbitIndex_of_lt {n : Nat} (h : n < 20) : orbitIndex n = n := by
  unfold orbitIndex
  split_ifs <;> omega

theorem phaseAfter_orbitIndex (n : Nat) :
    (phaseAfter n).signals = (phaseAfter (orbitIndex n)).signals := by
  induction n using Nat.strong_induction_on with
  | _ n ih =>
    by_cases h : n < 20
    · rw [orbitIndex_of_lt h]
    · have h1 := phaseAfter_period (n - 20)
      rw [show n - 20 + 20 = n by omega, show n - 20 + 4 = n - 16 by omega] at h1
      rw [h1, ih (n - 16) (by omega)]
      have h2 : orbitIndex (n - 16) = orbitIndex n := by
        unfold orbitIndex
        split_ifs <;> omega
      rw [h2]

/-- A property of the lights and cycle fields that holds at point `n` of the
orbit holds after every run of `n` ticks. -/
theorem run_of_length (P : Signals → Prop) (n : Nat) (hP : P (phaseAfter n).signals)
    (rs : List Draws) (hn : rs.length = n) : P (run rs).signals := by
  rw [run_signals, hn]
  exact hP

/-- A property, indexed by the tick number modulo 16, that holds at the first
twenty points of the orbit holds along every run. -/
theorem run_of_orbit (P : Nat → Signals → Prop)
    (hP : ∀ k, k < 20 → P (k % 16) (phaseAfter k).signals) (rs : List Draws) :
    P (rs.length % 16) (run rs).signals := by
  rw [run_signals, phaseAfter_orbitIndex, ← orbitIndex_mod]
  exact hP _ (orbitIndex_lt _)

/-! ## Shared lemmas: the vehicle loop -/

theorem moveVehicle_avenue (lights : List TrafficLight) (v : Vehicle) :
    (moveVehicle lights v).Avenue = v.Avenue := by
  unfold moveVehicle
  split
  · split_ifs <;> rfl
  · rfl

theorem moveVehicle_speed (lights : List TrafficLight) (v : Vehicle) :
    (moveVehicle lights v).Speed = v.Speed := by
  unfold moveVehicle
  split
  · split_ifs <;> rfl
  · rfl

theorem moveVehicle_id (lights : List TrafficLight) (v : Vehicle) :
    (moveVehicle lights v).ID = v.ID := by
  unfold moveVehicle
  split
  · split_ifs <;> rfl
  · rfl

theorem moveVehicle_green {lights : List TrafficLight} {v : Vehicle}
    (h : ∃ l, getLightByAvenue lights v.Avenue = some l ∧ l.State = .Green) :
    moveVehicle lights v = { v with Pos := wrapInt64 (v.Pos + v.Speed) } := by
  obtain ⟨l, hl, hg⟩ := h
  unfold moveVehicle
  rw [hl]
  simp [hg]

theorem moveVehicle_not_green {lights : List TrafficLight} {v : Vehicle}
    (h : ¬ ∃ l, getLightByAvenue lights v.Avenue = some l ∧ l.State = .Green) :
    moveVehicle lights v = v := by
  unfold moveVehicle
  split
  · rename_i l hl
    have hg : ¬ l.State = .Green := fun hg => h ⟨l, hl, hg⟩
    simp [hg]
  · rfl

theorem mem_advanceVehicles (lights : List TrafficLight) (width : Int) (vs : List Vehicle)
    (u : Vehicle) :
    u ∈ advanceVehicles lights width vs ↔
      ∃ v ∈ vs, moveVehicle lights v = u ∧ u.Pos < width := by
  induction vs with
  | nil => simp [advanceVehicles]
  | cons v vs ih =>
    unfold advanceVehicles
    dsimp only
    split_ifs with hw
    · rw [List.mem_cons, ih]
      constructor
      · rintro (rfl | ⟨x, hx, hx'⟩)
        · exact ⟨v, List.mem_cons_self _ _, rfl, hw⟩
        · exact ⟨x, List.mem_cons_of_mem _ hx, hx'⟩
      · rintro ⟨x, hx, hx'⟩
        rcases List.mem_cons.1 hx with rfl | hx
        · exact Or.inl hx'.1.symm
        · exact Or.inr ⟨x, hx, hx'⟩
    · rw [ih]
      constructor
      · rintro ⟨x, hx, hx'⟩
        exact ⟨x, List.mem_cons_of_mem _ hx, hx'⟩
      · rintro ⟨x, hx, hx'⟩
        rcases List.mem_cons.1 hx with rfl | hx
        · exact absurd (hx'.1 ▸ hx'.2) hw
        · exact ⟨x, hx, hx'⟩

theorem mem_spawnVehicle_of_mem {m : model} {v : Vehicle} (r : Draws) (h : v ∈ m.vehicles) :
    v ∈ (spawnVehicle m r).vehicles := by
  unfold spawnVehicle
  split_ifs
  · exact List.mem_append_left _ h
  · exact h

theorem mem_spawnVehicle {m : model} {v : Vehicle} {r : Draws}
    (h : v ∈ (spawnVehicle m r).vehicles) : v ∈ m.vehicles ∨ v = newVehicle r := by
  unfold spawnVehicle at h
  split_ifs at h
  · rcases List.mem_append.1 h with h | h
    · exact Or.inl h
    · exact Or.inr (List.mem_singleton.1 h)
  · exact Or.inl h

theorem newVehicle_pos (r : Draws) : (newVehicle r).Pos = 0 := rfl

theorem newVehicle_speed (r : Draws) : (newVehicle r).Speed = 1 ∨ (newVehicle r).Speed = 2 := by
  have h := r.speedDraw.isLt
  show ((r.speedDraw.val : Int) + 1 = 1) ∨ ((r.speedDraw.val : Int) + 1 = 2)
  omega

theorem newVehicle_id (r : Draws) : 0 ≤ (newVehicle r).ID ∧ (newVehicle r).ID < 999 := by
  have h := r.idDraw.isLt
  show (0 : Int) ≤ (r.idDraw.val : Int) ∧ (r.idDraw.val : Int) < 999
  omega

theorem newVehicle_avenue (r : Draws) : (newVehicle r).Avenue ∈ avenues :=
  List.get_mem _ _ _

theorem moveVehicle_pos_le {lights : List TrafficLight} {v : Vehicle}
    (hs : v.Speed = 1 ∨ v.Speed = 2) (h0 : 0 ≤ v.Pos) (h1 : v.Pos < 50) :
    v.Pos ≤ (moveVehicle lights v).Pos := by
  by_cases h : ∃ l, getLightByAvenue lights v.Avenue = some l ∧ l.State = .Green
  · rw [moveVehicle_green h]
    show v.Pos ≤ wrapInt64 (v.Pos + v.Speed)
    rw [wrapInt64_of_small (by omega) (by omega)]
    omega
  · rw [moveVehicle_not_green h]

theorem reachable_vehicles {m : model} (h : Reachable m) :
    m.width = 50 ∧ ∀ v ∈ m.vehicles, v.wellFormed := by
  induction h with
  | init => exact ⟨rfl, fun v hv => absurd hv (List.not_mem_nil v)⟩
  | step m r _ ih =>
    obtain ⟨hw, hv⟩ := ih
    refine ⟨by rw [tick_width, hw], fun u hu => ?_⟩
    rw [tick_vehicles, mem_advanceVehicles] at hu
    obtain ⟨v, hv', rfl, hlt⟩ := hu
    have hwf : v.wellFormed := by
      rcases mem_spawnVehicle hv' with h1 | rfl
      · exact hv v h1
      · exact ⟨le_of_eq (newVehicle_pos r).symm, by rw [newVehicle_pos]; decide,
          newVehicle_speed r, (newVehicle_id r).1, (newVehicle_id r).2, newVehicle_avenue r⟩
    obtain ⟨h0, h50, hs, hi0, hi1, ha⟩ := hwf
    refine ⟨le_trans h0 (moveVehicle_pos_le hs h0 h50), by rw [← hw]; exact hlt, ?_, ?_, ?_, ?_⟩
    · rw [moveVehicle_speed]; exact hs
    · rw [moveVehicle_id]; exact hi0
    · rw [moveVehicle_id]; exact hi1
    · rw [moveVehicle_avenue]; exact ha

/-- Every integer of a reachable state other than the frame counter is small:
the arithmetic of a tick never comes near the limits of a machine word. -/
theorem reachable_small {m : model} (h : Reachable m) :
    m.width = 50 ∧ (m.cycle = 1 ∨ m.cycle = 2) ∧
      (0 ≤ m.syncCountdown ∧ m.syncCountdown ≤ 2) ∧
      (∀ l ∈ m.lights, 0 ≤ l.Countdown ∧ l.Countdown ≤ 5 ∧ (l.Group = 1 ∨ l.Group = 2)) ∧
      (∀ v ∈ m.vehicles, 0 ≤ v.Pos ∧ v.Pos < 50 ∧ (v.Speed = 1 ∨ v.Speed = 2) ∧
        0 ≤ v.ID ∧ v.ID < 999) := by
  have hs := reachable_of_orbit
    (fun s => (s.cycle = 1 ∨ s.cycle = 2) ∧ (0 ≤ s.syncCountdown ∧ s.syncCountdown ≤ 2) ∧
      ∀ l ∈ s.lights, 0 ≤ l.Countdown ∧ l.Countdown ≤ 5 ∧ (l.Group = 1 ∨ l.Group = 2))
    (by decide) h
  obtain ⟨hw, hv⟩ := reachable_vehicles h
  refine ⟨hw, hs.1, hs.2.1, hs.2.2, fun v hv' => ?_⟩
  obtain ⟨h0, h1, h2, h3, h4, _⟩ := hv v hv'
  exact ⟨h0, h1, h2, h3, h4⟩

/-! ## Shared lemmas: the loops over the lights -/

theorem turnGreen_eq_map (cycle : Int) (ls : List TrafficLight) :
    turnGreen cycle ls =
      ls.map (fun l => if l.Group = cycle then { l with State := .Green, Countdown := 5 } else l) := by
  induction ls with
  | nil => rfl
  | cons l ls ih => simp only [turnGreen, List.map_cons, ih]

theorem runLight_fst (cycle : Int) (l : TrafficLight) (e : Bool) :
    (runLight cycle l e).1 = (runLight cycle l true).1 := by
  unfold runLight
  split_ifs <;> rfl

theorem runLight_snd (cycle : Int) (l : TrafficLight) (e : Bool) :
    (runLight cycle l e).2 = (e && decide (l.Group = cycle → l.Countdown ≤ 0)) := by
  unfold runLight
  split_ifs with h1 h2 h3 h4
  · have : ¬ (l.Group = cycle → l.Countdown ≤ 0) := fun h => absurd (h h1) (by omega)
    simp [this]
  · have h0 : l.Countdown ≤ 0 := by omega
    simp [h0]
  · simp [h1]
  · simp [h1]
  · simp [h1]

theorem runLights_fst (cycle : Int) (ls : List TrafficLight) (e : Bool) :
    (runLights cycle ls e).1 = ls.map (fun l => (runLight cycle l true).1) := by
  induction ls generalizing e with
  | nil => rfl
  | cons l ls ih =>
    simp only [runLights, List.map_cons, ih]
    rw [runLight_fst]

theorem runLights_snd (cycle : Int) (ls : List TrafficLight) (e : Bool) :
    (runLights cycle ls e).2 = true ↔
      e = true ∧ ∀ l ∈ ls, l.Group = cycle → l.Countdown ≤ 0 := by
  induction ls generalizing e with
  | nil => simp [runLights]
  | cons l ls ih =>
    simp only [runLights, ih, runLight_snd, Bool.and_eq_true, decide_eq_true_eq,
      List.mem_cons, forall_eq_or_imp]
    tauto

theorem runLight_sameIdentity (cycle : Int) (l : TrafficLight) (e : Bool) :
    sameIdentity l (runLight cycle l e).1 := by
  unfold runLight sameIdentity
  split_ifs <;> exact ⟨rfl, rfl, rfl, rfl, rfl⟩

theorem lightPhase_sameIdentity (m : model) :
    List.Forall₂ sameIdentity m.lights (lightPhase m).lights := by
  unfold lightPhase
  dsimp only
  split_ifs
  · dsimp only
    rw [turnGreen_eq_map, List.forall₂_map_right_iff, List.forall₂_same]
    intro l _
    unfold sameIdentity
    split_ifs <;> exact ⟨rfl, rfl, rfl, rfl, rfl⟩
  · exact List.forall₂_same.2 fun _ _ => ⟨rfl, rfl, rfl, rfl, rfl⟩
  · dsimp only
    rw [runLights_fst, List.forall₂_map_right_iff, List.forall₂_same]
    exact fun l _ => runLight_sameIdentity _ l true
  · dsimp only
    rw [runLights_fst, List.forall₂_map_right_iff, List.forall₂_same]
    exact fun l _ => runLight_sameIdentity _ l true

theorem forall₂_avenues {ls ls' : List TrafficLight} (h : List.Forall₂ sameIdentity ls ls') :
    ls'.map TrafficLight.Avenue = ls.map TrafficLight.Avenue := by
  induction h with
  | nil => rfl
  | cons hab _ ih => simp only [List.map_cons, ih, hab.1]

theorem reachable_avenues {m : model} (h : Reachable m) :
    m.lights.map TrafficLight.Avenue = avenues := by
  induction h with
  | init => rfl
  | step m r _ ih =>
    rw [tick_lights, forall₂_avenues (lightPhase_sameIdentity m), ih]

/-! ## Shared lemmas: the lookup -/

theorem getLightByAvenue_eq_find (ls : List TrafficLight) (avenue : String) :
    getLightByAvenue ls avenue = ls.find? (fun l => decide (l.Avenue = avenue)) := by
  induction ls with
  | nil => rfl
  | cons l ls ih =>
    unfold getLightByAvenue
    by_cases h : l.Avenue = avenue
    · simp [h]
    · simp [h, ih]

theorem getLightByAvenue_eq_none (ls : List TrafficLight) (avenue : String) :
    getLightByAvenue ls avenue = none ↔ ∀ l ∈ ls, l.Avenue ≠ avenue := by
  induction ls with
  | nil => simp [getLightByAvenue]
  | cons l ls ih =>
    unfold getLightByAvenue
    by_cases h : l.Avenue = avenue
    · simp [h]
    · simp [h, ih]

theorem getLightByAvenue_eq_some (ls : List TrafficLight) (avenue : String) (l : TrafficLight) :
    getLightByAvenue ls avenue = some l ↔
      ∃ pre post, ls = pre ++ l :: post ∧ l.Avenue = avenue ∧ ∀ x ∈ pre, x.Avenue ≠ avenue := by
  induction ls with
  | nil => simp [getLightByAvenue]
  | cons a ls ih =>
    unfold getLightByAvenue
    by_cases h : a.Avenue = avenue
    · rw [if_pos h]
      constructor
      · intro e
        have e' : a = l := Option.some.inj e
        subst e'
        exact ⟨[], ls, rfl, h, fun x hx => absurd hx (List.not_mem_nil x)⟩
      · rintro ⟨pre, post, e, hl, hpre⟩
        cases pre with
        | nil =>
          have e1 : a = l := (List.cons.inj e).1
          rw [e1]
        | cons b pre =>
          have e1 : a = b := (List.cons.inj e).1
          exact absurd (e1 ▸ h) (hpre b (List.mem_cons_self _ _))
    · rw [if_neg h, ih]
      constructor
      · rintro ⟨pre, post, e, hl, hpre⟩
        refine ⟨a :: pre, post, by rw [e]; rfl, hl, fun x hx => ?_⟩
        rcases List.mem_cons.1 hx with rfl | hx
        · exact h
        · exact hpre x hx
      · rintro ⟨pre, post, e, hl, hpre⟩
        cases pre with
        | nil =>
          have e1 : a = l := (List.cons.inj e).1
          exact absurd (e1 ▸ hl) h
        | cons b pre =>
          exact ⟨pre, post, (List.cons.inj e).2, hl,
            fun x hx => hpre x (List.mem_cons_of_mem _ hx)⟩

theorem lightPhase_running_stay {m : model} (hrun : m.transitioning = false)
    (he : (runLights m.cycle m.lights true).2 = false) :
    lightPhase m = { m with lights := (runLights m.cycle m.lights true).1 } := by
  unfold lightPhase
  simp [hrun, he]

theorem lightPhase_running_flip {m : model} (hrun : m.transitioning = false)
    (he : (runLights m.cycle m.lights true).2 = true) :
    lightPhase m =
      { m with
        lights := (runLights m.cycle m.lights true).1
        transitioning := true
        syncCountdown := 2
        cycle := wrapInt64 (3 - m.cycle) } := by
  unfold lightPhase
  simp [hrun, he]

/-- A relation between the lights and cycle fields before and after a tick that
holds between consecutive points of the orbit holds at every tick from a
reachable state. -/
theorem reachable_step_of_orbit (Q : Signals → Signals → Prop)
    (hQ : ∀ k, k < 20 → Q (phaseAfter k).signals (phaseAfter (k + 1)).signals)
    {m : model} (h : Reachable m) (r : Draws) : Q m.signals (tick m r).signals := by
  obtain ⟨k, hk, hk'⟩ := reachable_signals h
  have h1 : (tick m r).signals = (phaseAfter (k + 1)).signals :=
    (tick_signals m r).trans (lightPhase_signals_congr hk')
  rw [hk', h1]
  exact hQ k hk

/-! ## Shared lemmas: following one vehicle -/

theorem moveVehicle_of_green {lights : List TrafficLight} {v : Vehicle}
    (h : greenFor lights v.Avenue) :
    moveVehicle lights v = { v with Pos := wrapInt64 (v.Pos + v.Speed) } :=
  moveVehicle_green h

theorem moveVehicle_of_not_green {lights : List TrafficLight} {v : Vehicle}
    (h : ¬ greenFor lights v.Avenue) : moveVehicle lights v = v :=
  moveVehicle_not_green h

theorem tick_keeps_moved {m : model} (r : Draws) {v : Vehicle} (hv : v ∈ m.vehicles)
    (hkeep : (moveVehicle (tick m r).lights v).Pos < m.width) :
    moveVehicle (tick m r).lights v ∈ (tick m r).vehicles := by
  rw [tick_vehicles, mem_advanceVehicles]
  rw [tick_lights] at hkeep ⊢
  exact ⟨v, mem_spawnVehicle_of_mem r hv, rfl, hkeep⟩

theorem tick_green {m : model} (r : Draws) {v : Vehicle} (hv : v ∈ m.vehicles)
    (hg : greenFor (tick m r).lights v.Avenue) (hin : inInt64 (v.Pos + v.Speed))
    (hkeep : v.Pos + v.Speed < m.width) :
    { v with Pos := v.Pos + v.Speed } ∈ (tick m r).vehicles := by
  have hw : wrapInt64 (v.Pos + v.Speed) = v.Pos + v.Speed := wrapInt64_eq_self hin.1 hin.2
  have h := tick_keeps_moved r hv (by rw [moveVehicle_of_green hg, hw]; exact hkeep)
  rw [moveVehicle_of_green hg, hw] at h
  exact h

theorem tick_green_wrap {m : model} (r : Draws) {v : Vehicle} (hv : v ∈ m.vehicles)
    (hg : greenFor (tick m r).lights v.Avenue)
    (hkeep : wrapInt64 (v.Pos + v.Speed) < m.width) :
    { v with Pos := wrapInt64 (v.Pos + v.Speed) } ∈ (tick m r).vehicles := by
  have h := tick_keeps_moved r hv (by rw [moveVehicle_of_green hg]; exact hkeep)
  rw [moveVehicle_of_green hg] at h
  exact h

theorem tick_not_green {m : model} (r : Draws) {v : Vehicle} (hv : v ∈ m.vehicles)
    (hg : ¬ greenFor (tick m r).lights v.Avenue) (hkeep : v.Pos < m.width) :
    v ∈ (tick m r).vehicles := by
  have h := tick_keeps_moved r hv (by rw [moveVehicle_of_not_green hg]; exact hkeep)
  rw [moveVehicle_of_not_green hg] at h
  exact h

theorem runFrom_width (m : model) (rs : List Draws) : (runFrom m rs).width = m.width := by
  induction rs generalizing m with
  | nil => rfl
  | cons r rs ih => exact (ih (tick m r)).trans (tick_width m r)

theorem green_run (m : model) (rs : List Draws) (v : Vehicle) (hv : v ∈ m.vehicles)
    (hg : ∀ j, j < rs.length →
      greenFor (runFrom m (rs.take (j + 1))).lights v.Avenue ∧
        inInt64 (v.Pos + ((j : Int) + 1) * v.Speed) ∧
        v.Pos + ((j : Int) + 1) * v.Speed < m.width) :
    { v with Pos := v.Pos + (rs.length : Int) * v.Speed } ∈ (runFrom m rs).vehicles := by
  induction rs generalizing m v with
  | nil =>
    have e : ({ v with Pos := v.Pos + ((([] : List Draws).length : Nat) : Int) * v.Speed }
        : Vehicle) = v := by
      cases v
      simp
    rw [e]
    exact hv
  | cons r rs ih =>
    have h0 := hg 0 (Nat.succ_pos _)
    have hv1 : ({ v with Pos := v.Pos + v.Speed } : Vehicle) ∈ (tick m r).vehicles :=
      tick_green r hv h0.1 (by have := h0.2.1; simpa using this)
        (by have := h0.2.2; simpa using this)
    have h1 := ih (tick m r) { v with Pos := v.Pos + v.Speed } hv1 (fun j hj => by
      have h2 := hg (j + 1) (Nat.succ_lt_succ hj)
      have e2 : v.Pos + v.Speed + ((j : Int) + 1) * v.Speed
          = v.Pos + (((j + 1 : Nat) : Int) + 1) * v.Speed := by
        push_cast
        ring
      refine ⟨h2.1, ?_, ?_⟩
      · show inInt64 (v.Pos + v.Speed + ((j : Int) + 1) * v.Speed)
        rw [e2]
        exact h2.2.1
      · rw [tick_width]
        show v.Pos + v.Speed + ((j : Int) + 1) * v.Speed < m.width
        rw [e2]
        exact h2.2.2)
    have e : ({ v with Pos := v.Pos + ((r :: rs).length : Int) * v.Speed } : Vehicle)
        = { ({ v with Pos := v.Pos + v.Speed } : Vehicle) with
            Pos := v.Pos + v.Speed + (rs.length : Int) * v.Speed } := by
      have : v.Pos + ((r :: rs).length : Int) * v.Speed
          = v.Pos + v.Speed + (rs.length : Int) * v.Speed := by
        rw [List.length_cons]
        push_cast
        ring
      rw [this]
    rw [e]
    exact h1

theorem green_run_wrap (m : model) (rs : List Draws) (v : Vehicle) (hv : v ∈ m.vehicles)
    (hp : inInt64 v.Pos)
    (hg : ∀ j, j < rs.length →
      greenFor (runFrom m (rs.take (j + 1))).lights v.Avenue ∧
        wrapInt64 (v.Pos + ((j : Int) + 1) * v.Speed) < m.width) :
    { v with Pos := wrapInt64 (v.Pos + (rs.length : Int) * v.Speed) }
      ∈ (runFrom m rs).vehicles := by
  induction rs generalizing m v with
  | nil =>
    have e : ({ v with Pos := wrapInt64 (v.Pos + ((([] : List Draws).length : Nat) : Int) * v.Speed) }
        : Vehicle) = v := by
      have e0 : v.Pos + ((([] : List Draws).length : Nat) : Int) * v.Speed = v.Pos := by simp
      rw [e0, wrapInt64_eq_self hp.1 hp.2]
    rw [e]
    exact hv
  | cons r rs ih =>
    have h0 := hg 0 (Nat.succ_pos _)
    have hv1 : ({ v with Pos := wrapInt64 (v.Pos + v.Speed) } : Vehicle) ∈ (tick m r).vehicles :=
      tick_green_wrap r hv h0.1 (by have := h0.2; simpa using this)
    have hstep : ∀ n : Nat, wrapInt64 (wrapInt64 (v.Pos + v.Speed) + (n : Int) * v.Speed)
        = wrapInt64 (v.Pos + ((n : Int) + 1) * v.Speed) := by
      intro n
      rw [wrapInt64_add_left]
      congr 1
      ring
    have h1 := ih (tick m r) { v with Pos := wrapInt64 (v.Pos + v.Speed) } hv1
      (wrapInt64_range _) (fun j hj => by
        have h2 := hg (j + 1) (Nat.succ_lt_succ hj)
        refine ⟨h2.1, ?_⟩
        rw [tick_width]
        show wrapInt64 (wrapInt64 (v.Pos + v.Speed) + ((j : Int) + 1) * v.Speed) < m.width
        have h3 := hstep (j + 1)
        push_cast at h3
        rw [h3]
        have h4 := h2.2
        push_cast at h4
        exact h4)
    have e : ({ v with Pos := wrapInt64 (v.Pos + ((r :: rs).length : Int) * v.Speed) } : Vehicle)
        = { ({ v with Pos := wrapInt64 (v.Pos + v.Speed) } : Vehicle) with
            Pos := wrapInt64 (wrapInt64 (v.Pos + v.Speed) + (rs.length : Int) * v.Speed) } := by
      rw [hstep rs.length, List.length_cons]
      push_cast
      rfl
    rw [e]
    exact h1

/-! ## Shared lemmas: the track line and the transitioning branch -/

theorem drawVehicles_isSome (avenue : String) (width : Int) (vs : List Vehicle)
    (line : List Char) (hlen : (line.length : Int) = width) (hpos : ∀ v ∈ vs, 0 ≤ v.Pos) :
    (drawVehicles avenue width vs line).isSome = true := by
  induction vs generalizing line with
  | nil => rfl
  | cons v vs ih =>
    have hrest : ∀ u ∈ vs, 0 ≤ u.Pos := fun u hu => hpos u (List.mem_cons_of_mem _ hu)
    unfold drawVehicles
    split_ifs with hc
    · have h0 : 0 ≤ v.Pos := hpos v (List.mem_cons_self _ _)
      have hin : 0 ≤ v.Pos ∧ v.Pos < (line.length : Int) := ⟨h0, by rw [hlen]; exact hc.2⟩
      have hset : setCar line v.Pos = some (line.set v.Pos.toNat car) := by
        unfold setCar
        rw [if_pos hin]
      rw [hset]
      exact ih (line.set v.Pos.toNat car) (by rw [List.length_set]; exact hlen) hrest
    · exact ih line hlen hrest

theorem lightPhase_transitioning_go {m : model} (ht : m.transitioning = true)
    (hs : wrapInt64 (m.syncCountdown - 1) ≤ 0) :
    lightPhase m =
      { m with
        syncCountdown := wrapInt64 (m.syncCountdown - 1)
        transitioning := false
        lights := turnGreen m.cycle m.lights } := by
  unfold lightPhase
  simp [ht, hs]

theorem lightPhase_transitioning_hold {m : model} (ht : m.transitioning = true)
    (hs : 0 < wrapInt64 (m.syncCountdown - 1)) :
    lightPhase m = { m with syncCountdown := wrapInt64 (m.syncCountdown - 1) } := by
  unfold lightPhase
  simp [ht, not_le.2 hs]

/-! ## Invariants of the lights (C1 - C4) -/

set_option synthInstance.maxSize 512

/-- C1 (transition safety): in every state reachable from `initialModel` by
tick updates, whatever the random draws, if `transitioning` is true then no
light is Green. -/
theorem transition_safety (m : model) (h : Reachable m) (ht : m.transitioning = true) :
    ∀ l ∈ m.lights, l.State ≠ .Green :=
  reachable_of_orbit
    (fun s => s.transitioning = true → ∀ l ∈ s.lights, l.State ≠ .Green)
    (by decide) h ht

/-- Witness of C1 at the state after eight quiet ticks, where the machine has just
re-entered the transition. -/
theorem transition_safety_witness :
    Reachable (run (List.replicate 8 quiet)) ∧
      (run (List.replicate 8 quiet)).transitioning = true ∧
      ∀ l ∈ (run (List.replicate 8 quiet)).lights, l.State ≠ .Green :=
  ⟨reachable_run _, rfl, transition_safety _ (reachable_run _) rfl⟩

/-- C2 (mutual exclusion): in every reachable state no two lights of different
groups are both Green. -/
theorem mutual_exclusion (m : model) (h : Reachable m) :
    ∀ l1 ∈ m.lights, ∀ l2 ∈ m.lights,
      l1.Group ≠ l2.Group → ¬ (l1.State = .Green ∧ l2.State = .Green) :=
  reachable_of_orbit
    (fun s => ∀ l1 ∈ s.lights, ∀ l2 ∈ s.lights,
      l1.Group ≠ l2.Group → ¬ (l1.State = .Green ∧ l2.State = .Green))
    (by decide) h

/-- Witness of C2 at the state after ten quiet ticks, where group 2 is Green. -/
theorem mutual_exclusion_witness :
    Reachable (run (List.replicate 10 quiet)) ∧
      ∀ l1 ∈ (run (List.replicate 10 quiet)).lights,
        ∀ l2 ∈ (run (List.replicate 10 quiet)).lights,
          l1.Group ≠ l2.Group → ¬ (l1.State = .Green ∧ l2.State = .Green) :=
  ⟨reachable_run _, mutual_exclusion _ (reachable_run _)⟩

/-- C3, as stated, fails: after ten ticks the lights of group 1 are still Yellow
while the light of group 2 is already Green, so two groups are non-Red. -/
theorem two_groups_non_red_after_ten :
    Reachable (run (List.replicate 10 quiet)) ∧
      (run (List.replicate 10 quiet)).lights =
        [ ⟨"Av. Brasil", .Yellow, 0, 1, 0, 0, 2⟩,
          ⟨"Av. Paulista", .Green, 0, 2, 0, 0, 5⟩,
          ⟨"Av. Rebouças", .Yellow, 0, 1, 0, 0, 2⟩ ] ∧
      ¬ (∀ m, Reachable m → ∀ l1 ∈ m.lights, ∀ l2 ∈ m.lights,
          l1.Group ≠ l2.Group → l1.State = .Red ∨ l2.State = .Red) := by
  refine ⟨reachable_run _, rfl, fun hall => ?_⟩
  have h := hall (run (List.replicate 10 quiet)) (reachable_run _)
    ⟨"Av. Brasil", .Yellow, 0, 1, 0, 0, 2⟩ (List.mem_cons_self _ _)
    ⟨"Av. Paulista", .Green, 0, 2, 0, 0, 5⟩ (List.mem_cons_of_mem _ (List.mem_cons_self _ _))
    (by decide)
  rcases h with h | h <;> exact absurd h (by decide)

/-- C3, amended: in every reachable state two lights of different groups are both
non-Red only while the machine is running, and then the one of the active
group is Green and the other one is Yellow. -/
theorem non_red_overlap (m : model) (h : Reachable m) :
    ∀ l1 ∈ m.lights, ∀ l2 ∈ m.lights,
      l1.Group ≠ l2.Group → l1.State ≠ .Red → l2.State ≠ .Red →
        m.transitioning = false ∧
          ((l1.Group = m.cycle ∧ l1.State = .Green ∧ l2.State = .Yellow) ∨
            (l2.Group = m.cycle ∧ l2.State = .Green ∧ l1.State = .Yellow)) :=
  reachable_of_orbit
    (fun s => ∀ l1 ∈ s.lights, ∀ l2 ∈ s.lights,
      l1.Group ≠ l2.Group → l1.State ≠ .Red → l2.State ≠ .Red →
        s.transitioning = false ∧
          ((l1.Group = s.cycle ∧ l1.State = .Green ∧ l2.State = .Yellow) ∨
            (l2.Group = s.cycle ∧ l2.State = .Green ∧ l1.State = .Yellow)))
    (by decide) h

/-- Witness of the amended C3 at the state after ten quiet ticks, with the Yellow
light of group 1 and the Green light of group 2. -/
theorem non_red_overlap_witness :
    (run (List.replicate 10 quiet)).transitioning = false ∧
      (((1 : Int) = (run (List.replicate 10 quiet)).cycle ∧
          TrafficLightState.Yellow = .Green ∧ TrafficLightState.Green = .Yellow) ∨
        ((2 : Int) = (run (List.replicate 10 quiet)).cycle ∧
          TrafficLightState.Green = .Green ∧ TrafficLightState.Yellow = .Yellow)) :=
  non_red_overlap (run (List.replicate 10 quiet)) (reachable_run _)
    ⟨"Av. Brasil", .Yellow, 0, 1, 0, 0, 2⟩ (List.mem_cons_self _ _)
    ⟨"Av. Paulista", .Green, 0, 2, 0, 0, 5⟩ (List.mem_cons_of_mem _ (List.mem_cons_self _ _))
    (by decide) (by decide) (by decide)

/-- C4, as stated, fails: after eight ticks the machine is transitioning and the
lights of group 1 are Yellow, not Red. -/
theorem dead_time_not_all_red_after_eight :
    Reachable (run (List.replicate 8 quiet)) ∧
      (run (List.replicate 8 quiet)).transitioning = true ∧
      (run (List.replicate 8 quiet)).lights =
        [ ⟨"Av. Brasil", .Yellow, 0, 1, 0, 0, 2⟩,
          ⟨"Av. Paulista", .Red, 0, 2, 0, 0, 0⟩,
          ⟨"Av. Rebouças", .Yellow, 0, 1, 0, 0, 2⟩ ] ∧
      ¬ (∀ m, Reachable m → m.transitioning = true → ∀ l ∈ m.lights, l.State = .Red) := by
  refine ⟨reachable_run _, rfl, rfl, fun hall => ?_⟩
  have h := hall (run (List.replicate 8 quiet)) (reachable_run _) rfl
    ⟨"Av. Brasil", .Yellow, 0, 1, 0, 0, 2⟩ (List.mem_cons_self _ _)
  exact absurd h (by decide)

/-- C4, amended: in every reachable state with `transitioning` true, every light
of the group that goes Green next (`Group == cycle`) is Red and every other
light is Red or Yellow. -/
theorem dead_time_lights (m : model) (h : Reachable m) (ht : m.transitioning = true) :
    ∀ l ∈ m.lights,
      (l.Group = m.cycle → l.State = .Red) ∧ (l.State = .Red ∨ l.State = .Yellow) :=
  reachable_of_orbit
    (fun s => s.transitioning = true → ∀ l ∈ s.lights,
      (l.Group = s.cycle → l.State = .Red) ∧ (l.State = .Red ∨ l.State = .Yellow))
    (by decide) h ht

/-- Witness of the amended C4 at the state after eight quiet ticks. -/
theorem dead_time_lights_witness :
    Reachable (run (List.replicate 8 quiet)) ∧
      (run (List.replicate 8 quiet)).transitioning = true ∧
      ∀ l ∈ (run (List.replicate 8 quiet)).lights,
        (l.Group = (run (List.replicate 8 quiet)).cycle → l.State = .Red) ∧
          (l.State = .Red ∨ l.State = .Yellow) :=
  ⟨reachable_run _, rfl, dead_time_lights _ (reachable_run _) rfl⟩

/-! ## Cycle alternation (C5) -/

/-- C5 (cycle alternation): from a state with `cycle` in {1,2} a tick leaves
`cycle` in {1,2}; `cycle` changes exactly when the tick moves the machine from
running to transitioning, and then it becomes `3 - cycle`.  Along every run from
`initialModel` the machine enters a transition exactly at the ticks 8, 16, 24,
... and `cycle` is 1 during the ticks 0-7, 2 during 8-15, 1 during 16-23 and so
on: the active group alternates 1, 2, 1, 2, ... -/
theorem cycle_alternation (m : model) (r : Draws) (hc : m.cycle = 1 ∨ m.cycle = 2) :
    ((tick m r).cycle = 1 ∨ (tick m r).cycle = 2) ∧
      ((tick m r).cycle ≠ m.cycle ↔
        (m.transitioning = false ∧ (tick m r).transitioning = true)) ∧
      (m.transitioning = false ∧ (tick m r).transitioning = true →
        (tick m r).cycle = 3 - m.cycle) ∧
      (∀ rs : List Draws,
        (run rs).cycle = (if rs.length % 16 < 8 then 1 else 2) ∧
        (((run rs).transitioning = false ∧ (run (rs ++ [r])).transitioning = true) ↔
          (rs.length + 1) % 8 = 0)) := by
  have hstep : ((lightPhase m).cycle = 1 ∨ (lightPhase m).cycle = 2) ∧
      ((lightPhase m).cycle ≠ m.cycle ↔
        (m.transitioning = false ∧ (lightPhase m).transitioning = true)) ∧
      (m.transitioning = false ∧ (lightPhase m).transitioning = true →
        (lightPhase m).cycle = 3 - m.cycle) := by
    unfold lightPhase
    dsimp only
    split_ifs with h1 h2 h3
    · simpa [h1] using hc
    · simpa [h1] using hc
    · simp only [Bool.not_eq_true] at h1
      have hw : wrapInt64 (3 - m.cycle) = 3 - m.cycle :=
        wrapInt64_of_small (by omega) (by omega)
      dsimp only
      rw [hw]
      refine ⟨by omega, ?_, fun _ => rfl⟩
      simp only [h1, and_self, iff_true]
      omega
    · simp only [Bool.not_eq_true] at h1
      simpa [h1] using hc
  rw [tick_cycle, tick_transitioning]
  refine ⟨hstep.1, hstep.2.1, hstep.2.2, fun rs => ⟨?_, ?_⟩⟩
  · exact run_of_orbit (fun k s => s.cycle = if k < 8 then 1 else 2) (by decide) rs
  · have h1 := run_of_orbit (fun k s => s.transitioning = decide (k % 8 < 2)) (by decide) rs
    have h2 := run_of_orbit (fun k s => s.transitioning = decide (k % 8 < 2)) (by decide)
      (rs ++ [r])
    simp only [List.length_append, List.length_singleton] at h2
    have e1 : (run rs).transitioning = decide (rs.length % 16 % 8 < 2) := h1
    have e2 : (run (rs ++ [r])).transitioning = decide ((rs.length + 1) % 16 % 8 < 2) := h2
    rw [e1, e2]
    simp only [decide_eq_false_iff_not, decide_eq_true_eq]
    omega

/-- Witness of C5 at the state after seven quiet ticks: the eighth tick moves the
machine from running to transitioning and flips `cycle` from 1 to 2. -/
theorem cycle_alternation_witness :
    (run (List.replicate 7 quiet)).cycle = 1 ∧
      (tick (run (List.replicate 7 quiet)) quiet).cycle = 3 - (run (List.replicate 7 quiet)).cycle ∧
      (tick (run (List.replicate 7 quiet)) quiet).cycle = 2 :=
  ⟨rfl,
    (cycle_alternation (run (List.replicate 7 quiet)) quiet (Or.inl rfl)).2.2.1 ⟨rfl, rfl⟩,
    rfl⟩

/-! ## Vehicles (C6, C7) -/

/-- C6, as stated, fails: after a first tick that spawns a vehicle on
"Av. Brasil", the light of that avenue is Red at the start of the second tick,
and yet the second tick moves the vehicle from 0 to 1, because the light phase
of that tick turns the light Green before the vehicles move. -/
theorem moves_though_red_at_start :
    Reachable (run [spawnBrasil]) ∧
      (run [spawnBrasil]).vehicles = [⟨"Av. Brasil", 0, 1, 0⟩] ∧
      getLightByAvenue (run [spawnBrasil]).lights "Av. Brasil"
        = some ⟨"Av. Brasil", .Red, 0, 1, 0, 0, 0⟩ ∧
      (tick (run [spawnBrasil]) quiet).vehicles = [⟨"Av. Brasil", 1, 1, 0⟩] :=
  ⟨reachable_run _, by decide, by decide, by decide⟩

/-- C6, amended: for every tick from a reachable state and every vehicle of the
registry before the tick that is still on the track after moving, the moved
vehicle is in the registry after the tick, it is the same vehicle (avenue,
speed, id), and its position differs from the one before the tick if and only
if the light of its avenue is Green after the light phase of that tick, which
is the state of the lights at the end of the tick. -/
theorem motion_gating (m : model) (r : Draws) (h : Reachable m) (v : Vehicle)
    (hv : v ∈ m.vehicles) (hkeep : (moveVehicle (lightPhase m).lights v).Pos < m.width) :
    (tick m r).lights = (lightPhase m).lights ∧
      moveVehicle (lightPhase m).lights v ∈ (tick m r).vehicles ∧
      (moveVehicle (lightPhase m).lights v).Avenue = v.Avenue ∧
      (moveVehicle (lightPhase m).lights v).Speed = v.Speed ∧
      (moveVehicle (lightPhase m).lights v).ID = v.ID ∧
      ((moveVehicle (lightPhase m).lights v).Pos ≠ v.Pos ↔
        ∃ l, getLightByAvenue (lightPhase m).lights v.Avenue = some l ∧ l.State = .Green) := by
  refine ⟨tick_lights m r, ?_, moveVehicle_avenue _ _, moveVehicle_speed _ _,
    moveVehicle_id _ _, ?_⟩
  · rw [tick_vehicles, mem_advanceVehicles]
    exact ⟨v, mem_spawnVehicle_of_mem r hv, rfl, hkeep⟩
  · obtain ⟨h0, h50, hs, _⟩ := (reachable_vehicles h).2 v hv
    by_cases hg : ∃ l, getLightByAvenue (lightPhase m).lights v.Avenue = some l ∧ l.State = .Green
    · rw [moveVehicle_green hg]
      refine ⟨fun _ => hg, fun _ => ?_⟩
      show wrapInt64 (v.Pos + v.Speed) ≠ v.Pos
      rw [wrapInt64_of_small (by omega) (by omega)]
      omega
    · rw [moveVehicle_not_green hg]
      exact ⟨fun hne => absurd rfl hne, fun hg' => absurd hg' hg⟩

/-- Witness of the amended C6: the vehicle spawned by the first tick is moved by
the second tick, whose light phase turns the light of "Av. Brasil" Green. -/
theorem motion_gating_witness :
    Reachable (run [spawnBrasil]) ∧
      (⟨"Av. Brasil", 0, 1, 0⟩ : Vehicle) ∈ (run [spawnBrasil]).vehicles ∧
      (moveVehicle (lightPhase (run [spawnBrasil])).lights ⟨"Av. Brasil", 0, 1, 0⟩).Pos = 1 ∧
      ((moveVehicle (lightPhase (run [spawnBrasil])).lights ⟨"Av. Brasil", 0, 1, 0⟩).Pos
          ≠ (0 : Int) ↔
        ∃ l, getLightByAvenue (lightPhase (run [spawnBrasil])).lights "Av. Brasil" = some l ∧
          l.State = .Green) :=
  ⟨reachable_run _, by decide, by decide,
    (motion_gating (run [spawnBrasil]) quiet (reachable_run _) ⟨"Av. Brasil", 0, 1, 0⟩
      (by decide) (by decide)).2.2.2.2.2⟩

/-- C7 (vehicle retirement): for every state, reachable or not, and all draws,
after a tick, and after any number of further ticks, the width is unchanged and
every vehicle of the registry has `Pos < width`; so a vehicle whose position is
`>= width` is in no registry from the tick that moved it there onwards. -/
theorem vehicle_retirement (m : model) (r : Draws) (rs : List Draws) :
    (runFrom (tick m r) rs).width = m.width ∧
      (∀ v ∈ (runFrom (tick m r) rs).vehicles, v.Pos < m.width) ∧
      (∀ v : Vehicle, m.width ≤ v.Pos → v ∉ (runFrom (tick m r) rs).vehicles) := by
  have key : (runFrom (tick m r) rs).width = m.width ∧
      ∀ v ∈ (runFrom (tick m r) rs).vehicles, v.Pos < m.width := by
    induction rs generalizing m r with
    | nil =>
      refine ⟨tick_width m r, fun v hv => ?_⟩
      have hv' : v ∈ (tick m r).vehicles := hv
      rw [tick_vehicles, mem_advanceVehicles] at hv'
      obtain ⟨_, _, _, hlt⟩ := hv'
      exact hlt
    | cons s ss ih =>
      have h := ih (tick m r) s
      rw [tick_width] at h
      exact h
  exact ⟨key.1, key.2, fun v hge hv => absurd (key.2 v hv) (not_lt.2 hge)⟩

/-- Witness of C7: the vehicle at 49 with speed 2 under a Green light is moved to
51 and dropped; it is in no later registry. -/
theorem vehicle_retirement_witness :
    moveVehicle (tick lastStep quiet).lights ⟨"Av. Paulista", 49, 2, 7⟩
        = ⟨"Av. Paulista", 51, 2, 7⟩ ∧
      (tick lastStep quiet).vehicles = [] ∧
      (⟨"Av. Paulista", 51, 2, 7⟩ : Vehicle) ∉ (runFrom (tick lastStep quiet) [quiet]).vehicles :=
  ⟨by decide, by decide,
    (vehicle_retirement lastStep quiet [quiet]).2.2 ⟨"Av. Paulista", 51, 2, 7⟩ (by decide)⟩

/-! ## The literal scenario (C8 - C10) -/

/-- C8 (scenario, ticks 1-2): `initialModel` has cycle 1, is transitioning with
`syncCountdown` 2 and all lights Red with countdown 0; whatever the draws, after
tick 1 `syncCountdown` is 1, the machine is still transitioning and all lights
are Red; after tick 2 `syncCountdown` is 0, the machine is running, every light
of group 1 is Green with countdown 5 and every light of group 2 is still Red. -/
theorem scenario_ticks_1_2 (r1 r2 : Draws) :
    (initialModel.cycle = 1 ∧ initialModel.transitioning = true ∧
        initialModel.syncCountdown = 2 ∧
        ∀ l ∈ initialModel.lights, l.State = .Red ∧ l.Countdown = 0) ∧
      ((run [r1]).syncCountdown = 1 ∧ (run [r1]).transitioning = true ∧
        ∀ l ∈ (run [r1]).lights, l.State = .Red) ∧
      ((run [r1, r2]).syncCountdown = 0 ∧ (run [r1, r2]).transitioning = false ∧
        (∀ l ∈ (run [r1, r2]).lights,
          (l.Group = 1 → l.State = .Green ∧ l.Countdown = 5) ∧
            (l.Group = 2 → l.State = .Red)) ∧
        (run [r1, r2]).lights =
          [ ⟨"Av. Brasil", .Green, 0, 1, 0, 0, 5⟩,
            ⟨"Av. Paulista", .Red, 0, 2, 0, 0, 0⟩,
            ⟨"Av. Rebouças", .Green, 0, 1, 0, 0, 5⟩ ]) :=
  ⟨by decide,
    run_of_length
      (fun s => s.syncCountdown = 1 ∧ s.transitioning = true ∧
        ∀ l ∈ s.lights, l.State = .Red)
      1 (by decide) [r1] rfl,
    run_of_length
      (fun s => s.syncCountdown = 0 ∧ s.transitioning = false ∧
        (∀ l ∈ s.lights,
          (l.Group = 1 → l.State = .Green ∧ l.Countdown = 5) ∧
            (l.Group = 2 → l.State = .Red)) ∧
        s.lights =
          [ ⟨"Av. Brasil", .Green, 0, 1, 0, 0, 5⟩,
            ⟨"Av. Paulista", .Red, 0, 2, 0, 0, 0⟩,
            ⟨"Av. Rebouças", .Green, 0, 1, 0, 0, 5⟩ ])
      2 (by decide) [r1, r2] rfl⟩

/-- C9, as stated, fails: after tick 7 the lights of group 1 are Green with
countdown 0; they are not Yellow with countdown 2. -/
theorem still_green_after_seven :
    (run (List.replicate 7 quiet)).lights =
        [ ⟨"Av. Brasil", .Green, 0, 1, 0, 0, 0⟩,
          ⟨"Av. Paulista", .Red, 0, 2, 0, 0, 0⟩,
          ⟨"Av. Rebouças", .Green, 0, 1, 0, 0, 0⟩ ] ∧
      ¬ (∀ l ∈ (run (List.replicate 7 quiet)).lights,
          l.Group = 1 → l.State = .Yellow ∧ l.Countdown = 2) := by
  refine ⟨rfl, fun hall => ?_⟩
  have h := hall ⟨"Av. Brasil", .Green, 0, 1, 0, 0, 0⟩ (List.mem_cons_self _ _) rfl
  exact absurd h.1 (by decide)

/-- C9, amended: whatever the draws, the lights of group 1 are Green with
countdown 4, 3, 2, 1, 0 after the ticks 3, 4, 5, 6, 7, and tick 8, the tick
after the one on which the countdown hit 0, turns them Yellow with countdown 2. -/
theorem scenario_ticks_3_8 (rs : List Draws) :
    (∀ n : Nat, 3 ≤ n → n ≤ 7 → rs.length = n →
        ∀ l ∈ (run rs).lights, l.Group = 1 → l.State = .Green ∧ l.Countdown = 7 - (n : Int)) ∧
      (rs.length = 8 →
        ∀ l ∈ (run rs).lights, l.Group = 1 → l.State = .Yellow ∧ l.Countdown = 2) := by
  constructor
  · intro n h3 h7 hn
    have hP : ∀ k, k < 8 → 3 ≤ k →
        ∀ l ∈ (phaseAfter k).signals.lights,
          l.Group = 1 → l.State = .Green ∧ l.Countdown = 7 - (k : Int) := by decide
    exact run_of_length
      (fun s => ∀ l ∈ s.lights, l.Group = 1 → l.State = .Green ∧ l.Countdown = 7 - (n : Int))
      n (hP n (by omega) h3) rs hn
  · intro hn
    exact run_of_length
      (fun s => ∀ l ∈ s.lights, l.Group = 1 → l.State = .Yellow ∧ l.Countdown = 2)
      8 (by decide) rs hn

/-- Witness of the amended C9 on the run of quiet ticks: Green with countdown 0
after tick 7, Yellow with countdown 2 after tick 8. -/
theorem scenario_ticks_3_8_witness :
    (∀ l ∈ (run (List.replicate 7 quiet)).lights,
        l.Group = 1 → l.State = .Green ∧ l.Countdown = 7 - ((7 : Nat) : Int)) ∧
      (∀ l ∈ (run (List.replicate 8 quiet)).lights,
        l.Group = 1 → l.State = .Yellow ∧ l.Countdown = 2) :=
  ⟨(scenario_ticks_3_8 (List.replicate 7 quiet)).1 7 (by decide) (by decide) rfl,
    (scenario_ticks_3_8 (List.replicate 8 quiet)).2 rfl⟩

/-- C10, as stated, fails: the machine does not stay running through tick 8;
after tick 8 it is already transitioning, with `syncCountdown` 2, cycle 2 and
the lights of group 1 Yellow with countdown 2 (not 1), and after tick 9
`syncCountdown` is 1 (not 2) and that countdown is still 2 (not 0). -/
theorem transitioning_after_eight :
    ((run (List.replicate 8 quiet)).transitioning = true ∧
        (run (List.replicate 8 quiet)).syncCountdown = 2 ∧
        (run (List.replicate 8 quiet)).cycle = 2 ∧
        (run (List.replicate 8 quiet)).lights =
          [ ⟨"Av. Brasil", .Yellow, 0, 1, 0, 0, 2⟩,
            ⟨"Av. Paulista", .Red, 0, 2, 0, 0, 0⟩,
            ⟨"Av. Rebouças", .Yellow, 0, 1, 0, 0, 2⟩ ]) ∧
      ((run (List.replicate 9 quiet)).transitioning = true ∧
        (run (List.replicate 9 quiet)).syncCountdown = 1 ∧
        (run (List.replicate 9 quiet)).cycle = 2 ∧
        (run (List.replicate 9 quiet)).lights =
          [ ⟨"Av. Brasil", .Yellow, 0, 1, 0, 0, 2⟩,
            ⟨"Av. Paulista", .Red, 0, 2, 0, 0, 0⟩,
            ⟨"Av. Rebouças", .Yellow, 0, 1, 0, 0, 2⟩ ]) :=
  ⟨⟨rfl, rfl, rfl, rfl⟩, ⟨rfl, rfl, rfl, rfl⟩⟩

/-- C10, amended: whatever the draws, the machine is running with cycle 1 after
each of the ticks 2 to 7, and tick 8 is the first tick after which it is
transitioning again, with `syncCountdown` 2, cycle 2 and the lights of group 1
Yellow with countdown 2; after tick 9 it is still transitioning, with
`syncCountdown` 1, cycle 2 and the lights of group 1 unchanged. -/
theorem scenario_ticks_8_9 (rs : List Draws) :
    (2 ≤ rs.length → rs.length ≤ 7 →
        (run rs).transitioning = false ∧ (run rs).cycle = 1) ∧
      (rs.length = 8 →
        (run rs).transitioning = true ∧ (run rs).syncCountdown = 2 ∧ (run rs).cycle = 2 ∧
          ∀ l ∈ (run rs).lights, l.Group = 1 → l.State = .Yellow ∧ l.Countdown = 2) ∧
      (rs.length = 9 →
        (run rs).transitioning = true ∧ (run rs).syncCountdown = 1 ∧ (run rs).cycle = 2 ∧
          ∀ l ∈ (run rs).lights, l.Group = 1 → l.State = .Yellow ∧ l.Countdown = 2) := by
  refine ⟨fun h2 h7 => ?_, fun hn => ?_, fun hn => ?_⟩
  · have hP : ∀ k, k < 8 → 2 ≤ k →
        (phaseAfter k).signals.transitioning = false ∧ (phaseAfter k).signals.cycle = 1 := by
      decide
    exact run_of_length (fun s => s.transitioning = false ∧ s.cycle = 1) rs.length
      (hP rs.length (by omega) h2) rs rfl
  · exact run_of_length
      (fun s => s.transitioning = true ∧ s.syncCountdown = 2 ∧ s.cycle = 2 ∧
        ∀ l ∈ s.lights, l.Group = 1 → l.State = .Yellow ∧ l.Countdown = 2)
      8 (by decide) rs hn
  · exact run_of_length
      (fun s => s.transitioning = true ∧ s.syncCountdown = 1 ∧ s.cycle = 2 ∧
        ∀ l ∈ s.lights, l.Group = 1 → l.State = .Yellow ∧ l.Countdown = 2)
      9 (by decide) rs hn

/-- Witness of the amended C10 on the run of quiet ticks. -/
theorem scenario_ticks_8_9_witness :
    ((run (List.replicate 7 quiet)).transitioning = false ∧
        (run (List.replicate 7 quiet)).cycle = 1) ∧
      ((run (List.replicate 8 quiet)).transitioning = true ∧
        (run (List.replicate 8 quiet)).syncCountdown = 2 ∧
        (run (List.replicate 8 quiet)).cycle = 2 ∧
        ∀ l ∈ (run (List.replicate 8 quiet)).lights,
          l.Group = 1 → l.State = .Yellow ∧ l.Countdown = 2) :=
  ⟨(scenario_ticks_8_9 (List.replicate 7 quiet)).1 (by decide) (by decide),
    (scenario_ticks_8_9 (List.replicate 8 quiet)).2.1 rfl⟩

/-! ## The all-expired check and the countdowns (C11, C12) -/

/-- C11, as stated, fails: after tick 7 the machine is running with the lights of
the active group 1 Green at countdown 0; tick 8 flips them to Yellow and, on the
same tick, re-enters the transition and flips `cycle` to 2. -/
theorem flip_to_yellow_reenters_transition :
    ((run (List.replicate 7 quiet)).transitioning = false ∧
        (run (List.replicate 7 quiet)).cycle = 1 ∧
        (run (List.replicate 7 quiet)).lights =
          [ ⟨"Av. Brasil", .Green, 0, 1, 0, 0, 0⟩,
            ⟨"Av. Paulista", .Red, 0, 2, 0, 0, 0⟩,
            ⟨"Av. Rebouças", .Green, 0, 1, 0, 0, 0⟩ ]) ∧
      ((tick (run (List.replicate 7 quiet)) quiet).lights =
          [ ⟨"Av. Brasil", .Yellow, 0, 1, 0, 0, 2⟩,
            ⟨"Av. Paulista", .Red, 0, 2, 0, 0, 0⟩,
            ⟨"Av. Rebouças", .Yellow, 0, 1, 0, 0, 2⟩ ] ∧
        (tick (run (List.replicate 7 quiet)) quiet).transitioning = true ∧
        (tick (run (List.replicate 7 quiet)) quiet).cycle = 2) :=
  ⟨⟨rfl, rfl, rfl⟩, ⟨rfl, rfl, rfl⟩⟩

/-- C11, amended: in a running state only a light of the active group whose
countdown is still positive counts as not yet expired.  If there is one, the
tick stays running with `cycle` unchanged.  If every light of the active group
has countdown `<= 0`, the tick sets each of them Yellow with countdown 2,
re-enters the transition with `syncCountdown` 2 and flips `cycle` to the 64-bit
value of `3 - cycle`, which is `3 - cycle` itself unless `cycle` is one of the
four least 64-bit integers. -/
theorem all_expired_policy (m : model) (r : Draws) (hrun : m.transitioning = false) :
    ((∃ l ∈ m.lights, l.Group = m.cycle ∧ 0 < l.Countdown) →
        (tick m r).transitioning = false ∧ (tick m r).cycle = m.cycle) ∧
      ((∀ l ∈ m.lights, l.Group = m.cycle → l.Countdown ≤ 0) →
        (tick m r).transitioning = true ∧ (tick m r).syncCountdown = 2 ∧
          (tick m r).cycle = wrapInt64 (3 - m.cycle) ∧
          (minInt64 + 4 ≤ m.cycle → m.cycle ≤ maxInt64 → (tick m r).cycle = 3 - m.cycle) ∧
          List.Forall₂ (fun l l' => l.Group = m.cycle → l'.State = .Yellow ∧ l'.Countdown = 2)
            m.lights (tick m r).lights) := by
  rw [tick_transitioning, tick_cycle, tick_syncCountdown, tick_lights]
  have hflag := runLights_snd m.cycle m.lights true
  constructor
  · rintro ⟨l, hl, hg, hc⟩
    have he : (runLights m.cycle m.lights true).2 = false := by
      rw [← Bool.not_eq_true]
      exact fun h => absurd ((hflag.1 h).2 l hl hg) (by omega)
    rw [lightPhase_running_stay hrun he]
    exact ⟨hrun, rfl⟩
  · intro hall
    have he : (runLights m.cycle m.lights true).2 = true := hflag.2 ⟨rfl, hall⟩
    rw [lightPhase_running_flip hrun he]
    refine ⟨rfl, rfl, rfl, fun h1 h2 => wrapInt64_three_sub h1 h2, ?_⟩
    dsimp only
    rw [runLights_fst, List.forall₂_map_right_iff, List.forall₂_same]
    intro l hl hg
    have hc : ¬ l.Countdown > 0 := not_lt.2 (hall l hl hg)
    unfold runLight
    rw [if_pos hg, if_neg hc]
    exact ⟨rfl, rfl⟩

/-- Witness of the amended C11 at the state after seven quiet ticks, where every
light of the active group has countdown 0. -/
theorem all_expired_policy_witness :
    (run (List.replicate 7 quiet)).transitioning = false ∧
      (tick (run (List.replicate 7 quiet)) quiet).transitioning = true ∧
      (tick (run (List.replicate 7 quiet)) quiet).syncCountdown = 2 ∧
      (tick (run (List.replicate 7 quiet)) quiet).cycle = 3 - (run (List.replicate 7 quiet)).cycle :=
  ⟨rfl,
    (((all_expired_policy (run (List.replicate 7 quiet)) quiet rfl).2 (by decide)).1),
    (((all_expired_policy (run (List.replicate 7 quiet)) quiet rfl).2 (by decide)).2.1),
    (((all_expired_policy (run (List.replicate 7 quiet)) quiet rfl).2 (by decide)).2.2.2.1
      (by decide) (by decide))⟩

/-- C12, as stated, fails: after tick 8 the lights of group 1 are Yellow with
countdown 2, and after tick 9 they are still Yellow with countdown 2, not 1. -/
theorem yellow_frozen_in_transition :
    Reachable (run (List.replicate 8 quiet)) ∧
      (run (List.replicate 8 quiet)).lights =
        [ ⟨"Av. Brasil", .Yellow, 0, 1, 0, 0, 2⟩,
          ⟨"Av. Paulista", .Red, 0, 2, 0, 0, 0⟩,
          ⟨"Av. Rebouças", .Yellow, 0, 1, 0, 0, 2⟩ ] ∧
      (tick (run (List.replicate 8 quiet)) quiet).lights =
        [ ⟨"Av. Brasil", .Yellow, 0, 1, 0, 0, 2⟩,
          ⟨"Av. Paulista", .Red, 0, 2, 0, 0, 0⟩,
          ⟨"Av. Rebouças", .Yellow, 0, 1, 0, 0, 2⟩ ] :=
  ⟨reachable_run _, rfl, rfl⟩

/-- C12, amended: at every tick from a reachable state, light by light in list
order, a light that is Green or Yellow before the tick and has the same state
after it has its countdown decreased by exactly 1 when the tick starts in the
running state, and has its countdown unchanged when the tick starts in the
transition. -/
theorem countdown_monotone (m : model) (r : Draws) (h : Reachable m) :
    List.Forall₂
      (fun l l' =>
        (l.State = .Green ∨ l.State = .Yellow) → l'.State = l.State →
          (m.transitioning = false → l'.Countdown = l.Countdown - 1) ∧
            (m.transitioning = true → l'.Countdown = l.Countdown))
      m.lights (tick m r).lights :=
  reachable_step_of_orbit
    (fun s s' => List.Forall₂
      (fun l l' =>
        (l.State = .Green ∨ l.State = .Yellow) → l'.State = l.State →
          (s.transitioning = false → l'.Countdown = l.Countdown - 1) ∧
            (s.transitioning = true → l'.Countdown = l.Countdown))
      s.lights s'.lights)
    (by decide) h r

/-- Witness of the amended C12 at the state after three quiet ticks, where the
lights of group 1 go from Green 4 to Green 3. -/
theorem countdown_monotone_witness :
    Reachable (run (List.replicate 3 quiet)) ∧
      List.Forall₂
        (fun l l' =>
          (l.State = .Green ∨ l.State = .Yellow) → l'.State = l.State →
            ((run (List.replicate 3 quiet)).transitioning = false →
                l'.Countdown = l.Countdown - 1) ∧
              ((run (List.replicate 3 quiet)).transitioning = true →
                l'.Countdown = l.Countdown))
        (run (List.replicate 3 quiet)).lights
        (tick (run (List.replicate 3 quiet)) quiet).lights :=
  ⟨reachable_run _, countdown_monotone _ quiet (reachable_run _)⟩

/-! ## Vehicles: scenario, waiting, spawning (C13 - C15) -/

/-- C13 (vehicle scenario): take any state and any vehicle of its registry.
Over `k` consecutive ticks at each of which the light of its avenue is Green
when the vehicle loop reads it and the vehicle stays below `width`, its
position grows by exactly `k * Speed`: in Go's 64-bit arithmetic for every
vehicle, and as plain integers whenever the positions it passes are 64-bit
values, so that no addition of the speed wraps.  In particular a vehicle at 0
with speed 2 is at 6 after three such ticks, and it is at 4 after the third tick
when the light is Green on the first two ticks and not Green on the third. -/
theorem vehicle_scenario (m : model) (v : Vehicle) (hv : v ∈ m.vehicles) :
    (∀ rs : List Draws, inInt64 v.Pos →
        (∀ j, j < rs.length →
          greenFor (runFrom m (rs.take (j + 1))).lights v.Avenue ∧
            wrapInt64 (v.Pos + ((j : Int) + 1) * v.Speed) < m.width) →
        { v with Pos := wrapInt64 (v.Pos + (rs.length : Int) * v.Speed) }
          ∈ (runFrom m rs).vehicles) ∧
      (∀ rs : List Draws,
        (∀ j, j < rs.length →
          greenFor (runFrom m (rs.take (j + 1))).lights v.Avenue ∧
            inInt64 (v.Pos + ((j : Int) + 1) * v.Speed) ∧
            v.Pos + ((j : Int) + 1) * v.Speed < m.width) →
        { v with Pos := v.Pos + (rs.length : Int) * v.Speed } ∈ (runFrom m rs).vehicles) ∧
      (∀ r1 r2 r3 : Draws, v.Pos = 0 → v.Speed = 2 → 6 < m.width →
        greenFor (runFrom m [r1]).lights v.Avenue →
        greenFor (runFrom m [r1, r2]).lights v.Avenue →
        greenFor (runFrom m [r1, r2, r3]).lights v.Avenue →
        { v with Pos := 6 } ∈ (runFrom m [r1, r2, r3]).vehicles) ∧
      (∀ r1 r2 r3 : Draws, v.Pos = 0 → v.Speed = 2 → 4 < m.width →
        greenFor (runFrom m [r1]).lights v.Avenue →
        greenFor (runFrom m [r1, r2]).lights v.Avenue →
        ¬ greenFor (runFrom m [r1, r2, r3]).lights v.Avenue →
        { v with Pos := 4 } ∈ (runFrom m [r1, r2, r3]).vehicles) := by
  refine ⟨fun rs hp hg => green_run_wrap m rs v hv hp hg,
    fun rs hg => green_run m rs v hv hg, ?_, ?_⟩
  · intro r1 r2 r3 hp hs hw g1 g2 g3
    have h := green_run m [r1, r2, r3] v hv (fun j hj => by
      have hj' : j < 3 := hj
      rw [hp, hs]
      interval_cases j
      · exact ⟨g1, inInt64_of_small (by norm_num) (by norm_num), by norm_num; omega⟩
      · exact ⟨g2, inInt64_of_small (by norm_num) (by norm_num), by norm_num; omega⟩
      · exact ⟨g3, inInt64_of_small (by norm_num) (by norm_num), by norm_num; omega⟩)
    have e : v.Pos + (([r1, r2, r3] : List Draws).length : Int) * v.Speed = 6 := by
      rw [hp, hs]
      rfl
    rw [e] at h
    exact h
  · intro r1 r2 r3 hp hs hw g1 g2 g3
    have h := green_run m [r1, r2] v hv (fun j hj => by
      have hj' : j < 2 := hj
      rw [hp, hs]
      interval_cases j
      · exact ⟨g1, inInt64_of_small (by norm_num) (by norm_num), by norm_num; omega⟩
      · exact ⟨g2, inInt64_of_small (by norm_num) (by norm_num), by norm_num; omega⟩)
    have e : v.Pos + (([r1, r2] : List Draws).length : Int) * v.Speed = 4 := by
      rw [hp, hs]
      rfl
    rw [e] at h
    have hw2 : (runFrom m [r1, r2]).width = m.width := runFrom_width m [r1, r2]
    exact tick_not_green (m := runFrom m [r1, r2]) r3 h g3 (by rw [hw2]; exact hw)

/-- Witness of C13.  A vehicle of speed 2 spawned on "Av. Brasil" by tick 1 is at
6 after the ticks 2, 3 and 4; a vehicle of speed 2 at the start of "Av. Brasil"
after tick 5 is at 4 after tick 8, whose light phase turns the light Yellow. -/
theorem vehicle_scenario_witness :
    (⟨"Av. Brasil", 0, 2, 0⟩ : Vehicle) ∈ (run [spawnFast]).vehicles ∧
      (⟨"Av. Brasil", 6, 2, 0⟩ : Vehicle)
        ∈ (runFrom (run [spawnFast]) [quiet, quiet, quiet]).vehicles ∧
      (⟨"Av. Brasil", 4, 2, 0⟩ : Vehicle)
        ∈ (runFrom waitingAtFive [quiet, quiet, quiet]).vehicles :=
  ⟨by decide,
    (vehicle_scenario (run [spawnFast]) ⟨"Av. Brasil", 0, 2, 0⟩ (by decide)).2.2.1
      quiet quiet quiet rfl rfl (by decide)
      ⟨⟨"Av. Brasil", .Green, 0, 1, 0, 0, 5⟩, by decide, rfl⟩
      ⟨⟨"Av. Brasil", .Green, 0, 1, 0, 0, 4⟩, by decide, rfl⟩
      ⟨⟨"Av. Brasil", .Green, 0, 1, 0, 0, 3⟩, by decide, rfl⟩,
    (vehicle_scenario waitingAtFive ⟨"Av. Brasil", 0, 2, 0⟩ (by decide)).2.2.2
      quiet quiet quiet rfl rfl (by decide)
      ⟨⟨"Av. Brasil", .Green, 0, 1, 0, 0, 1⟩, by decide, rfl⟩
      ⟨⟨"Av. Brasil", .Green, 0, 1, 0, 0, 0⟩, by decide, rfl⟩
      (by
        rintro ⟨l, hl, hg⟩
        have e : getLightByAvenue (runFrom waitingAtFive [quiet, quiet, quiet]).lights
            "Av. Brasil" = some ⟨"Av. Brasil", .Yellow, 0, 1, 0, 0, 2⟩ := by decide
        have hl' : getLightByAvenue (runFrom waitingAtFive [quiet, quiet, quiet]).lights
            "Av. Brasil" = some l := hl
        rw [e] at hl'
        rw [← Option.some.inj hl'] at hg
        exact absurd hg (by decide))⟩

/-- C14 (waiting and lookup miss): for every state and every vehicle of the
registry with `Pos < width` whose avenue has no light, or has a light that is
not Green after the light phase of the tick, the tick returns its result, the
vehicle loop leaves the vehicle as it is, and the vehicle is in the registry
after the tick with the same avenue, position, speed and id. -/
theorem waiting_vehicle_stays (m : model) (r : Draws) (v : Vehicle) (hv : v ∈ m.vehicles)
    (hpos : v.Pos < m.width)
    (hlight : getLightByAvenue (lightPhase m).lights v.Avenue = none ∨
      ∃ l, getLightByAvenue (lightPhase m).lights v.Avenue = some l ∧ l.State ≠ .Green) :
    Update m .tickMsg r = (tick m r, .tick) ∧
      moveVehicle (lightPhase m).lights v = v ∧
      v ∈ (tick m r).vehicles := by
  have hng : ¬ greenFor (tick m r).lights v.Avenue := by
    rw [tick_lights]
    rintro ⟨l, hl, hg⟩
    rcases hlight with hnone | ⟨l', hl', hg'⟩
    · rw [hnone] at hl
      exact Option.noConfusion hl
    · rw [hl'] at hl
      exact hg' (Option.some.inj hl ▸ hg)
  refine ⟨rfl, ?_, tick_not_green r hv hng hpos⟩
  rw [tick_lights] at hng
  exact moveVehicle_of_not_green hng

/-- Witness of C14 for a lookup miss: a vehicle on an avenue without a light
stays in the registry, where it is. -/
theorem waiting_vehicle_stays_witness :
    (⟨"Av. Ipiranga", 3, 1, 9⟩ : Vehicle) ∈ strayVehicle.vehicles ∧
      getLightByAvenue (lightPhase strayVehicle).lights "Av. Ipiranga" = none ∧
      (⟨"Av. Ipiranga", 3, 1, 9⟩ : Vehicle) ∈ (tick strayVehicle quiet).vehicles :=
  ⟨by decide, by decide,
    (waiting_vehicle_stays strayVehicle quiet ⟨"Av. Ipiranga", 3, 1, 9⟩ (by decide) (by decide)
      (Or.inl (by decide))).2.2⟩

/-- C15 (spawn policy): with the draws as inputs, the spawn step appends exactly
one vehicle to the registry when the spawn draw is 7, 8 or 9 and leaves the
registry as it is when the draw is at most 6; the vehicle loop of the tick then
runs on that registry.  The new vehicle has position 0, speed `s + 1`, which is
1 or 2, and the avenue number `a` of the configured avenues, which is the avenue
of a light of `initialModel`. -/
theorem spawn_policy (m : model) (r : Draws) :
    ((r.spawnDraw = 7 ∨ r.spawnDraw = 8 ∨ r.spawnDraw = 9) →
        (spawnVehicle m r).vehicles = m.vehicles ++ [newVehicle r]) ∧
      (r.spawnDraw ≤ 6 → (spawnVehicle m r).vehicles = m.vehicles) ∧
      (tick m r).vehicles =
        advanceVehicles (lightPhase m).lights m.width (spawnVehicle m r).vehicles ∧
      (newVehicle r).Pos = 0 ∧
      (newVehicle r).Speed = (r.speedDraw.val : Int) + 1 ∧
      ((newVehicle r).Speed = 1 ∨ (newVehicle r).Speed = 2) ∧
      avenues.get? r.avenueDraw.val = some (newVehicle r).Avenue ∧
      (∃ l ∈ initialModel.lights, l.Avenue = (newVehicle r).Avenue) := by
  refine ⟨fun hd => ?_, fun hd => ?_, tick_vehicles m r, rfl, rfl, newVehicle_speed r, ?_, ?_⟩
  · have h6 : r.spawnDraw.val > 6 := by
      rcases hd with h | h | h <;> rw [h] <;> decide
    unfold spawnVehicle
    rw [if_pos h6]
  · have h6 : ¬ r.spawnDraw.val > 6 := not_lt.2 (Fin.le_def.1 hd)
    unfold spawnVehicle
    rw [if_neg h6]
  · exact List.get?_eq_get _
  · have hmem := newVehicle_avenue r
    have hav : initialModel.lights.map TrafficLight.Avenue = avenues := rfl
    rw [← hav] at hmem
    obtain ⟨l, hl, e⟩ := List.mem_map.1 hmem
    exact ⟨l, hl, e⟩

/-! ## Well-formed vehicles (C16) -/

/-- C16 (vehicle well-formedness): in every reachable state every vehicle of the
registry is on the avenue of a light of the state, so that the lookup of its
light does not miss, has speed 1 or 2, and has `0 <= Pos < width`; hence the
line that `View` builds for each light is built without an index out of range. -/
theorem vehicle_well_formed (m : model) (h : Reachable m) :
    (∀ v ∈ m.vehicles,
        (∃ l ∈ m.lights, l.Avenue = v.Avenue) ∧
          getLightByAvenue m.lights v.Avenue ≠ none ∧
          (v.Speed = 1 ∨ v.Speed = 2) ∧ 0 ≤ v.Pos ∧ v.Pos < m.width) ∧
      (∀ light ∈ m.lights, (trackLine m light).isSome = true) := by
  obtain ⟨hw, hv⟩ := reachable_vehicles h
  have hav := reachable_avenues h
  constructor
  · intro v hvm
    obtain ⟨h0, h1, hs, _, _, ha⟩ := hv v hvm
    rw [← hav] at ha
    obtain ⟨l, hl, e⟩ := List.mem_map.1 ha
    refine ⟨⟨l, hl, e⟩, ?_, hs, h0, by rw [hw]; exact h1⟩
    intro hnone
    exact (getLightByAvenue_eq_none m.lights v.Avenue).1 hnone l hl e
  · intro light _
    unfold trackLine
    rw [if_pos (by rw [hw]; decide)]
    refine drawVehicles_isSome _ _ _ _ ?_ (fun v hvm => (hv v hvm).1)
    rw [List.length_replicate, hw]
    rfl

/-- Witness of C16 at the state after a tick that spawns a vehicle. -/
theorem vehicle_well_formed_witness :
    Reachable (run [spawnBrasil]) ∧
      (run [spawnBrasil]).vehicles = [⟨"Av. Brasil", 0, 1, 0⟩] ∧
      (∀ v ∈ (run [spawnBrasil]).vehicles,
        (∃ l ∈ (run [spawnBrasil]).lights, l.Avenue = v.Avenue) ∧
          getLightByAvenue (run [spawnBrasil]).lights v.Avenue ≠ none ∧
          (v.Speed = 1 ∨ v.Speed = 2) ∧ 0 ≤ v.Pos ∧ v.Pos < (run [spawnBrasil]).width) :=
  ⟨reachable_run _, by decide, (vehicle_well_formed _ (reachable_run _)).1⟩

/-! ## The transitioning step and the lookup (C17, C18) -/

/-- C17 (transitioning step): from every state with `transitioning` true a tick
decreases `syncCountdown` by exactly 1, as Go's 64-bit decrement does: the new
value is `syncCountdown - 1` for every 64-bit value but the least one, from
which the decrement wraps to the greatest.  The tick leaves `cycle` unchanged.
If the new value is `<= 0`, `transitioning` becomes false, every light of group
`cycle` becomes Green with countdown 5 and every other light is unchanged; if
the new value is `> 0`, `transitioning` stays true and no light is changed. -/
theorem transitioning_step (m : model) (r : Draws) (ht : m.transitioning = true) :
    (tick m r).syncCountdown = wrapInt64 (m.syncCountdown - 1) ∧
      (minInt64 < m.syncCountdown → m.syncCountdown ≤ maxInt64 →
        (tick m r).syncCountdown = m.syncCountdown - 1) ∧
      (tick m r).cycle = m.cycle ∧
      ((tick m r).syncCountdown ≤ 0 →
        (tick m r).transitioning = false ∧
          List.Forall₂
            (fun l l' =>
              (l.Group = m.cycle → l' = { l with State := .Green, Countdown := 5 }) ∧
                (l.Group ≠ m.cycle → l' = l))
            m.lights (tick m r).lights) ∧
      (0 < (tick m r).syncCountdown →
        (tick m r).transitioning = true ∧ (tick m r).lights = m.lights) := by
  rw [tick_syncCountdown, tick_cycle, tick_transitioning, tick_lights]
  by_cases hs : wrapInt64 (m.syncCountdown - 1) ≤ 0
  · rw [lightPhase_transitioning_go ht hs]
    refine ⟨rfl, fun h1 h2 => wrapInt64_pred h1 h2, rfl, fun _ => ⟨rfl, ?_⟩,
      fun hpos => absurd hs (not_le.2 hpos)⟩
    dsimp only
    rw [turnGreen_eq_map, List.forall₂_map_right_iff, List.forall₂_same]
    intro l _
    by_cases hg : l.Group = m.cycle
    · rw [if_pos hg]
      exact ⟨fun _ => rfl, fun hne => absurd hg hne⟩
    · rw [if_neg hg]
      exact ⟨fun he => absurd he hg, fun _ => rfl⟩
  · rw [lightPhase_transitioning_hold ht (not_le.1 hs)]
    exact ⟨rfl, fun h1 h2 => wrapInt64_pred h1 h2, rfl, fun hle => absurd hle hs,
      fun _ => ⟨ht, rfl⟩⟩

/-- Witness of C17 at the state after one tick, whose next tick ends the
transition and turns group 1 Green. -/
theorem transitioning_step_witness :
    (run [quiet]).transitioning = true ∧
      (tick (run [quiet]) quiet).syncCountdown = (run [quiet]).syncCountdown - 1 ∧
      (tick (run [quiet]) quiet).syncCountdown = 0 ∧
      (tick (run [quiet]) quiet).transitioning = false :=
  ⟨rfl, (transitioning_step (run [quiet]) quiet rfl).2.1 (by decide) (by decide), rfl,
    ((transitioning_step (run [quiet]) quiet rfl).2.2.2.1 (by decide)).1⟩

/-- C18 (light lookup): for every list of lights and every avenue,
`getLightByAvenue` returns `nil` if and only if no light of the list has that
avenue, and it returns a light exactly when that light is the first one in list
order with that avenue; it is the library search for the first match. -/
theorem light_lookup (ls : List TrafficLight) (avenue : String) :
    (getLightByAvenue ls avenue = none ↔ ∀ l ∈ ls, l.Avenue ≠ avenue) ∧
      (∀ l, getLightByAvenue ls avenue = some l ↔
        ∃ before after, ls = before ++ l :: after ∧ l.Avenue = avenue ∧
          ∀ x ∈ before, x.Avenue ≠ avenue) ∧
      getLightByAvenue ls avenue = ls.find? (fun l => decide (l.Avenue = avenue)) :=
  ⟨getLightByAvenue_eq_none ls avenue, fun l => getLightByAvenue_eq_some ls avenue l,
    getLightByAvenue_eq_find ls avenue⟩

/-! ## Periodicity and independence (C19, C20) -/

/-- C19 (periodicity): along every run from `initialModel` and for every
`n >= 4`, the lights and cycle fields after tick `n + 16` are those after tick
`n`, whatever the draws of the two runs.  No tick leaves these fields as they
were, so the machine has no terminal state, and the lights of group 1 are Green
exactly after the ticks 2 to 7 of each period of 16 and those of group 2
exactly after the ticks 10 to 15: each group turns Green once every 16 ticks. -/
theorem light_cycle_periodic (rs ss : List Draws) (h4 : 4 ≤ rs.length)
    (hs : ss.length = rs.length + 16) :
    (run ss).signals = (run rs).signals ∧
      (∀ r : Draws, (tick (run rs) r).signals ≠ (run rs).signals) ∧
      (∀ l ∈ (run rs).lights,
        (l.Group = 1 → (l.State = .Green ↔ 2 ≤ rs.length % 16 ∧ rs.length % 16 ≤ 7)) ∧
          (l.Group = 2 → (l.State = .Green ↔ 10 ≤ rs.length % 16))) := by
  refine ⟨?_, fun r => ?_, ?_⟩
  · rw [run_signals, run_signals, hs]
    have h := phaseAfter_period (rs.length - 4)
    rw [show rs.length - 4 + 20 = rs.length + 16 by omega,
      show rs.length - 4 + 4 = rs.length by omega] at h
    exact h
  · exact reachable_step_of_orbit (fun s s' => s' ≠ s) (by decide) (reachable_run rs) r
  · exact run_of_orbit
      (fun k s => ∀ l ∈ s.lights,
        (l.Group = 1 → (l.State = .Green ↔ 2 ≤ k ∧ k ≤ 7)) ∧
          (l.Group = 2 → (l.State = .Green ↔ 10 ≤ k)))
      (by decide) rs

/-- Witness of C19: tick 20 of a run that spawns at every tick against tick 4 of
a run that never spawns. -/
theorem light_cycle_periodic_witness :
    (run (List.replicate 20 spawnBrasil)).signals = (run (List.replicate 4 quiet)).signals ∧
      (run (List.replicate 4 quiet)).lights =
        [ ⟨"Av. Brasil", .Green, 0, 1, 0, 0, 3⟩,
          ⟨"Av. Paulista", .Red, 0, 2, 0, 0, 0⟩,
          ⟨"Av. Rebouças", .Green, 0, 1, 0, 0, 3⟩ ] :=
  ⟨(light_cycle_periodic (List.replicate 4 quiet) (List.replicate 20 spawnBrasil)
      (by decide) (by decide)).1, rfl⟩

/-- C20 (independence): two states that agree on lights, `cycle`,
`syncCountdown` and `transitioning`, whatever their vehicles and whatever the
draws of the two ticks, agree on these fields again after one tick.  A tick
changes neither the number nor the order of the lights, nor the avenue, group,
timer, passed or waiting field of any light, nor `width`. -/
theorem lights_independent (m m' : model) (r r' : Draws) (h : m.signals = m'.signals) :
    (tick m r).signals = (tick m' r').signals ∧
      (tick m r).lights.length = m.lights.length ∧
      List.Forall₂
        (fun l l' =>
          l'.Avenue = l.Avenue ∧ l'.Group = l.Group ∧ l'.Timer = l.Timer ∧
            l'.Passed = l.Passed ∧ l'.Waiting = l.Waiting)
        m.lights (tick m r).lights ∧
      (tick m r).width = m.width := by
  have hf : List.Forall₂ sameIdentity m.lights (tick m r).lights := by
    rw [tick_lights]
    exact lightPhase_sameIdentity m
  refine ⟨?_, hf.length_eq.symm, hf, tick_width m r⟩
  rw [tick_signals, tick_signals]
  exact lightPhase_signals_congr h

/-- Witness of C20: the state after a tick that spawned a vehicle and the state
after a tick that did not, advanced with different draws. -/
theorem lights_independent_witness :
    (run [spawnBrasil]).signals = (run [quiet]).signals ∧
      (run [spawnBrasil]).vehicles ≠ (run [quiet]).vehicles ∧
      (tick (run [spawnBrasil]) quiet).signals = (tick (run [quiet]) spawnFast).signals :=
  ⟨rfl, by decide, (lights_independent (run [spawnBrasil]) (run [quiet]) quiet spawnFast rfl).1⟩

end Traffic

